import Mathlib

/-!
Shallow embedding of the sports-event tracker's ingest/state pipeline
(endpoint poller, GUID resolver, record decoder, live-state projector,
history store) and proofs of the specification claims about it.

Modelling conventions, shared by the whole file:
* JavaScript strings are Lean `String`s; `str.split(sep)` for a one-character
  separator is `splitOnChar`, which reproduces JS semantics (always at least
  one piece, empty pieces kept).
* JS `number` values produced by `Number(string)` are modelled by `JsNum`:
  either NaN, an infinity, or an exact rational.  IEEE-754 rounding of finite
  values is not modelled (finite values are kept exact); NaN-ness, infiniteness
  and zero-ness of every string the pipeline meets are preserved exactly for
  literals within double range.
* Thrown JS exceptions are modelled by `Except JsError` / an `Option JsError`
  component; `JsError.validation` is the repository's `ValidationError`,
  `JsError.guidNotFound` its `GuidNotFoundError`, and `JsError.typeError`
  a built-in `TypeError` (e.g. reading a property of `undefined`).
* `Date.now()` is passed in as an explicit `now : Nat` parameter.
-/

/-- Split a list of characters on a separator character, JS `String.split`
style: the result always has at least one (possibly empty) piece and empty
pieces are kept. -/
def splitCharsAux (sep : Char) : List Char → List Char → List (List Char)
  | [], acc => [acc.reverse]
  | c :: cs, acc =>
    if c = sep then acc.reverse :: splitCharsAux sep cs []
    else splitCharsAux sep cs (c :: acc)

/-- JS `s.split(sep)` for a single-character separator. -/
def splitOnChar (sep : Char) (s : String) : List String :=
  (splitCharsAux sep s.data []).map String.mk

/-- The whitespace characters recognised by JS `String.prototype.trim` and by
`Number(string)` (the common ASCII ones plus NBSP and the BOM; the rarer
Unicode space separators are not modelled). -/
def isJsWhitespace (c : Char) : Bool :=
  c = ' ' || c = '\t' || c = '\n' || c = '\r' || c = '\x0b' || c = '\x0c' ||
    c = ' ' || c = '﻿'

/-- JS `s.trim()`. -/
def jsTrim (s : String) : String :=
  String.mk (((s.data.dropWhile isJsWhitespace).reverse.dropWhile
    isJsWhitespace).reverse)

/-- A JS `number` as produced by `Number(string)`: NaN, one of the two
infinities, or a finite value kept as an exact rational. -/
inductive JsNum where
  | nan : JsNum
  | posInf : JsNum
  | negInf : JsNum
  | fin : ℚ → JsNum
deriving DecidableEq

/-- JS `isNaN` on an already-converted number. -/
def jsIsNaN : JsNum → Bool
  | .nan => true
  | _ => false

/-- JS truthiness test of a number (`0`, `-0` and `NaN` are falsy). -/
def jsNumFalsy : JsNum → Bool
  | .nan => true
  | .fin q => q.num = 0
  | _ => false

/-- Value of one digit character in the given base, if it is a digit there. -/
def digitVal? (base : ℕ) (c : Char) : Option ℕ :=
  let v :=
    if '0' ≤ c ∧ c ≤ '9' then some (c.toNat - '0'.toNat)
    else if 'a' ≤ c ∧ c ≤ 'z' then some (c.toNat - 'a'.toNat + 10)
    else if 'A' ≤ c ∧ c ≤ 'Z' then some (c.toNat - 'A'.toNat + 10)
    else none
  match v with
  | some n => if n < base then some n else none
  | none => none

/-- Parse a non-empty run of digits in the given base; `none` if the list is
empty or contains a non-digit. -/
def parseDigits (base : ℕ) (cs : List Char) : Option ℕ :=
  match cs with
  | [] => none
  | _ =>
    cs.foldl (fun acc c =>
      match acc, digitVal? base c with
      | some n, some d => some (n * base + d)
      | _, _ => none) (some 0)

/-- Parse the exponent suffix of a JS decimal literal (empty, or `e`/`E`,
an optional sign and at least one digit). Returns the signed exponent. -/
def parseExpPart (cs : List Char) : Option ℤ :=
  match cs with
  | [] => some 0
  | e :: rest =>
    if e = 'e' ∨ e = 'E' then
      match rest with
      | '+' :: ds => (parseDigits 10 ds).map (fun n => (n : ℤ))
      | '-' :: ds => (parseDigits 10 ds).map (fun n => -(n : ℤ))
      | ds => (parseDigits 10 ds).map (fun n => (n : ℤ))
    else none

/-- Ten to a natural power, by plain recursion (kernel-friendly). -/
def pow10 : ℕ → ℕ
  | 0 => 1
  | n + 1 => pow10 n * 10

/-- The exact rational value `(iv + fv / 10^fracLen) * 10^ex` of a decimal
literal with integer part `iv`, fraction digits worth `fv` over `fracLen`
digits, and signed exponent `ex`, built with core `Rat` operations only. -/
def decValue (iv fv fracLen : ℕ) (ex : ℤ) : ℚ :=
  let m : ℤ := Int.ofNat (iv * pow10 fracLen + fv)
  let e : ℤ := ex - Int.ofNat fracLen
  if 0 ≤ e then mkRat (m * Int.ofNat (pow10 e.toNat)) 1
  else mkRat m (pow10 (-e).toNat)

/-- Parse an unsigned JS decimal literal (`DecimalDigits [. DecimalDigits]
[ExponentPart]` or `. DecimalDigits [ExponentPart]`), requiring the whole
input to be consumed. -/
def parseDecimalLit (cs : List Char) : Option ℚ :=
  let intPart := cs.takeWhile (fun c => (digitVal? 10 c).isSome)
  let rest1 := cs.dropWhile (fun c => (digitVal? 10 c).isSome)
  match rest1 with
  | '.' :: rest2 =>
    let fracPart := rest2.takeWhile (fun c => (digitVal? 10 c).isSome)
    let rest3 := rest2.dropWhile (fun c => (digitVal? 10 c).isSome)
    if intPart = [] ∧ fracPart = [] then none
    else
      match parseExpPart rest3 with
      | some ex =>
        some (decValue ((parseDigits 10 intPart).getD 0)
          ((parseDigits 10 fracPart).getD 0) fracPart.length ex)
      | none => none
  | _ =>
    if intPart = [] then none
    else
      match parseExpPart rest1 with
      | some ex => some (decValue ((parseDigits 10 intPart).getD 0) 0 0 ex)
      | none => none

/-- A signed JS `StrDecimalLiteral`: optional sign, then `Infinity` or a
decimal literal. -/
def parseSignedDecimal (cs : List Char) : JsNum :=
  let (neg, body) :=
    match cs with
    | '+' :: rest => (false, rest)
    | '-' :: rest => (true, rest)
    | rest => (false, rest)
  if body = "Infinity".data then
    if neg then .negInf else .posInf
  else
    match parseDecimalLit body with
    | some q => .fin (if neg then -q else q)
    | none => .nan

/-- JS `Number(string)` (ECMAScript StringToNumber): trim, empty means `0`,
`0x`/`0o`/`0b` radix literals (unsigned), otherwise an optionally signed
decimal literal or `Infinity`; anything else is NaN. -/
def jsStringToNumber (s : String) : JsNum :=
  let t := (jsTrim s).data
  match t with
  | [] => .fin (mkRat 0 1)
  | '0' :: c :: rest =>
    if c = 'x' ∨ c = 'X' then
      match parseDigits 16 rest with
      | some n => .fin (mkRat (Int.ofNat n) 1)
      | none => .nan
    else if c = 'o' ∨ c = 'O' then
      match parseDigits 8 rest with
      | some n => .fin (mkRat (Int.ofNat n) 1)
      | none => .nan
    else if c = 'b' ∨ c = 'B' then
      match parseDigits 2 rest with
      | some n => .fin (mkRat (Int.ofNat n) 1)
      | none => .nan
    else parseSignedDecimal t
  | _ => parseSignedDecimal t

/-- Lower-case an ASCII letter (the `i` flag of the uuid validation regex). -/
def asciiLower (c : Char) : Char :=
  if 'A' ≤ c ∧ c ≤ 'Z' then Char.ofNat (c.toNat + 32) else c

/-- Lower-case hexadecimal digit. -/
def isHexChar (c : Char) : Bool :=
  ('0' ≤ c ∧ c ≤ '9') || ('a' ≤ c ∧ c ≤ 'f')

/-- `validate` from the `uuid` npm package: the nil or max UUID, or five
hyphen-separated hex groups of sizes 8-4-4-4-12 whose version nibble is `1`-`8`
and whose variant nibble is `8`, `9`, `a` or `b` (case-insensitive). -/
def isUuid (s : String) : Bool :=
  let t := s.data.map asciiLower
  t = "00000000-0000-0000-0000-000000000000".data ||
  t = "ffffffff-ffff-ffff-ffff-ffffffffffff".data ||
  match splitCharsAux '-' t [] with
  | [g1, g2, g3, g4, g5] =>
    g1.length = 8 && g2.length = 4 && g3.length = 4 && g4.length = 4 &&
    g5.length = 12 && (g1 ++ g2 ++ g3 ++ g4 ++ g5).all isHexChar &&
    ('1' ≤ g3.headD '0' && g3.headD '0' ≤ '8') &&
    (g4.headD '0' = '8' || g4.headD '0' = '9' || g4.headD '0' = 'a' ||
      g4.headD '0' = 'b')
  | _ => false

example : isUuid "ec517b6c-6ed8-4449-ad9b-0a1dbbbf8fb9" = true := by decide
example : isUuid "(Generated)" = false := by decide
example : isUuid "EC517B6C-6ED8-4449-AD9B-0A1DBBBF8FB9" = true := by decide
example : jsStringToNumber "1729839678453" = .fin (mkRat 1729839678453 1) := by decide
example : jsStringToNumber "" = .fin (mkRat 0 1) := by decide
example : jsStringToNumber "Infinity" = .posInf := by decide
example : jsStringToNumber "1.5" = .fin (mkRat 3 2) := by decide
example : jsStringToNumber "abc" = .nan := by decide
example : jsStringToNumber "0x10" = .fin (mkRat 16 1) := by decide
example : jsStringToNumber " 12 " = .fin (mkRat 12 1) := by decide
example : jsStringToNumber "1e3" = .fin (mkRat 1000 1) := by decide
example : jsStringToNumber "-2.5e-1" = .fin (mkRat (-1) 4) := by decide
example : jsNumFalsy (jsStringToNumber "0") = true := by decide
example : jsNumFalsy (jsStringToNumber "0.0") = true := by decide

/-- Errors thrown by the pipeline: the repository's `ValidationError` and
`GuidNotFoundError`, plus the built-in `TypeError` (reading a property of
`undefined`). -/
inductive JsError where
  | validation : String → JsError
  | guidNotFound : String → JsError
  | typeError : String → JsError
deriving DecidableEq

deriving instance DecidableEq for Except

/-- The resolver's id → name cache, as seen by the decoder during one
snapshot: a fixed partial mapping.  (The stateful `GuidMapper`, including its
fetch-on-miss path, is modelled separately below; during the render of one
record the decoder only observes lookups.) -/
abbrev GuidDict : Type := String → Option String

/-- `GuidMapper.get` as observed by the decoder: an invalid UUID is a
`ValidationError`; an id that is unbound (or bound to the falsy empty string,
which `get`'s truthiness tests treat as absent) is a `GuidNotFoundError`. -/
def dictGet (d : GuidDict) (guid : String) : Except JsError String :=
  if ¬ isUuid guid then .error (.validation ("Invalid GUID format: " ++ guid))
  else
    match d guid with
    | some v => if v = "" then .error (.guidNotFound guid) else .ok v
    | none => .error (.guidNotFound guid)

/-- One parsed score period (`GoalInfo` in `matchmapper.ts`). -/
structure GoalInfo where
  period : String
  homeGoals : JsNum
  awayGoals : JsNum
deriving DecidableEq

/-- The `MatchMapper`'s fields after a successful `parseRecord`. -/
structure ParsedRecord where
  rawData : String
  id : String
  sportId : String
  leagueId : String
  startTime : JsNum
  homeTeamId : String
  awayTeamId : String
  statusId : String
  goals : List GoalInfo
deriving DecidableEq

/-- One period score of a mapped match (`Score`); `scoreType` is the source's
`type` field. -/
structure Score where
  scoreType : String
  home : JsNum
  away : JsNum
deriving DecidableEq

/-- One competitor of a mapped match (`Competitor`); `ctype` is the source's
`type` field (`HOME` / `AWAY`). -/
structure Competitor where
  ctype : String
  name : String
deriving DecidableEq

/-- The denormalized view of one match (`MappedMatch`).  `scores` is a JS
object keyed by period name, kept as an insertion-ordered association list;
`startTime` keeps the parsed millisecond value (the source's
`new Date(ms).toISOString()` formatting is not modelled — no claim depends on
the textual form); `competitors` is the fixed HOME/AWAY pair. -/
structure MappedMatch where
  id : String
  status : String
  scores : List (String × Score)
  startTime : JsNum
  sport : String
  home : Competitor
  away : Competitor
  competition : String
deriving DecidableEq

/-- JS object property assignment `obj[k] = v` on an insertion-ordered
association list: overwrite in place if the key exists, else append. -/
def jsObjSet {α : Type} : List (String × α) → String → α → List (String × α)
  | [], k, v => [(k, v)]
  | (k0, v0) :: rest, k, v =>
    if k0 = k then (k0, v) :: rest else (k0, v0) :: jsObjSet rest k v

/-- First-occurrence lookup in an insertion-ordered association list (JS `Map`
`get` / object property read). -/
def jsObjGet {α : Type} : List (String × α) → String → Option α
  | [], _ => none
  | (k0, v0) :: rest, k => if k0 = k then some v0 else jsObjGet rest k

/-- `MatchMapper.parseGoals`, one `|`-separated segment: destructure the
`@`-split into period id and scores, validate the period id as a UUID, then
convert the first two `:`-separated score components with `Number` (a missing
component is `undefined`, whose conversion is NaN).  A segment whose prefix is
a valid UUID but that has no `@` at all leaves `scores` `undefined`, so
`scores.split` throws a `TypeError` rather than a `ValidationError`. -/
def parseGoalSegment (seg : String) : Except JsError GoalInfo :=
  let parts := splitOnChar '@' seg
  let periodId := parts.headD ""
  if ¬ isUuid periodId then
    .error (.validation ("Invalid period GUID: " ++ periodId))
  else
    match parts with
    | _ :: scores :: _ =>
      let nums := (splitOnChar ':' scores).map jsStringToNumber
      let homeGoals := nums.headD .nan
      let awayGoals := (nums.drop 1).headD .nan
      if jsIsNaN homeGoals || jsIsNaN awayGoals then
        .error (.validation ("Invalid goals format: " ++ scores))
      else .ok { period := periodId, homeGoals, awayGoals }
    | _ => .error (.typeError "Cannot read properties of undefined (reading split)")

/-- `periods.map(...)` inside `parseGoals`: left-to-right, the first thrown
error aborts the whole map. -/
def mapGoals : List String → Except JsError (List GoalInfo)
  | [] => .ok []
  | seg :: rest =>
    match parseGoalSegment seg with
    | .error e => .error e
    | .ok g =>
      match mapGoals rest with
      | .error e => .error e
      | .ok gs => .ok (g :: gs)

/-- `MatchMapper.parseRecord`: split on commas, check the field count is 7 or
8, validate the UUID fields 0,1,2,4,5,6 in order, convert field 3 with
`Number` rejecting only NaN, and parse field 7's goals when present and
non-empty. -/
def parseRecord (record : String) : Except JsError ParsedRecord :=
  let fields := splitOnChar ',' record
  if fields.length < 7 ∨ fields.length > 8 then
    .error (.validation ("Invalid record format: expected 7 or 8 fields, got "
      ++ toString fields.length))
  else
    match ([0, 1, 2, 4, 5, 6].find? fun i => !(isUuid (fields.getD i ""))) with
    | some i =>
      .error (.validation ("Invalid GUID at position " ++ toString (i + 1)
        ++ ": " ++ fields.getD i ""))
    | none =>
      let timestamp := jsStringToNumber (fields.getD 3 "")
      if jsIsNaN timestamp then
        .error (.validation ("Invalid timestamp: " ++ fields.getD 3 ""))
      else
        match (if fields.length = 8 ∧ fields.getD 7 "" ≠ "" then
            mapGoals (splitOnChar '|' (fields.getD 7 ""))
          else .ok []) with
        | .error e => .error e
        | .ok goals =>
          .ok { rawData := record, id := fields.getD 0 "",
                sportId := fields.getD 1 "", leagueId := fields.getD 2 "",
                startTime := timestamp, homeTeamId := fields.getD 4 "",
                awayTeamId := fields.getD 5 "", statusId := fields.getD 6 "",
                goals }

/-- `MatchMapper.renderMatchObject`.  The mapper state is `none` when
`parseRecord` has not completed; with a parsed record the source's null/falsy
guard on each field reduces to JS falsiness tests (for the string fields
emptiness, for `startTime` the number being `0` or NaN).  On success returns
the one-entry object keyed by the match id. -/
def renderMatchObject (d : GuidDict) :
    Option ParsedRecord → Except JsError (String × MappedMatch)
  | none => .error (.validation "Match data not initialized. Call parseRecord first.")
  | some r =>
    if r.rawData = "" ∨ r.id = "" ∨ r.sportId = "" ∨ r.leagueId = "" ∨
        jsNumFalsy r.startTime ∨ r.homeTeamId = "" ∨ r.awayTeamId = "" ∨
        r.statusId = "" then
      .error (.validation "Match data not initialized. Call parseRecord first.")
    else do
      let sport ← dictGet d r.sportId
      let competition ← dictGet d r.leagueId
      let status ← dictGet d r.statusId
      let homeTeam ← dictGet d r.homeTeamId
      let awayTeam ← dictGet d r.awayTeamId
      let scores ← r.goals.foldlM (fun acc goal => do
          let periodName ← dictGet d goal.period
          pure (jsObjSet acc periodName
            { scoreType := periodName, home := goal.homeGoals,
              away := goal.awayGoals })) []
      pure (r.id,
        { id := r.id, status, scores, startTime := r.startTime, sport,
          home := { ctype := "HOME", name := homeTeam },
          away := { ctype := "AWAY", name := awayTeam }, competition })

/-- The statuses kept in the live view (`INCLUDED_STATE_STATUSES`). -/
def includedStateStatuses : List String := ["PRE", "LIVE"]

/-- The live-state projection: a JS object keyed by match id. -/
abbrev MatchView : Type := List (String × MappedMatch)

/-- The record-processing loop of `LiveMatchState.onEndpointChange`: parse and
render each line, keeping only matches whose status is PRE or LIVE in the
fresh `newState` object. -/
def lsBuildState (d : GuidDict) : MatchView → List String → Except JsError MatchView
  | ns, [] => .ok ns
  | ns, record :: rest =>
    match parseRecord record with
    | .error e => .error e
    | .ok parsed =>
      match renderMatchObject d (some parsed) with
      | .error e => .error e
      | .ok (matchId, mm) =>
        lsBuildState d
          (if includedStateStatuses.contains mm.status then jsObjSet ns matchId mm
           else ns) rest

/-- `LiveMatchState.onEndpointChange` given the payload's `odds` string (the
surrounding `JSON.parse` of the `{odds: string}` envelope is external
transport and not modelled): split on newlines, drop empty lines
(`filter(Boolean)` — note: no trimming here, unlike the history store), build
the fresh state, and only on success replace `currentState`; on failure the
previous view is kept and the error is rethrown to the caller. -/
def lsOnEndpointChange (d : GuidDict) (view : MatchView) (odds : String) :
    MatchView × Option JsError :=
  match lsBuildState d [] ((splitOnChar '\n' odds).filter (· ≠ "")) with
  | .ok ns => (ns, none)
  | .error e => (view, some e)

/-- `LiveMatchState.getCurrentState`: returns a shallow copy
(`{...currentState}`) of the view; as a value it equals the view itself
(reference aliasing and in-place mutation are outside this embedding). -/
def lsGetCurrentState (view : MatchView) : MatchView := view

/-- One stored history entry (`MatchHistoryEntry`).  `renderedData` keeps the
rendered one-entry match object itself rather than its `JSON.stringify`
serialization (no claim inspects the JSON text). -/
structure MatchHistoryEntry where
  timestamp : ℕ
  rawData : String
  renderedData : Option (String × MappedMatch)
  matchStatus : String
deriving DecidableEq

/-- The in-memory store: a JS `Map` from match id to the ordered entry list,
kept as an insertion-ordered association list. -/
abbrev Storage : Type := List (String × List MatchHistoryEntry)

/-- `InMemoryMatchHistoryStorage.getMatchHistory`. -/
def getMatchHistory (st : Storage) (matchId : String) : List MatchHistoryEntry :=
  (jsObjGet st matchId).getD []

/-- `InMemoryMatchHistoryStorage.getCurrentMatchEntry`: the last entry, or
`undefined` when the id is unknown or its history is empty. -/
def getCurrentMatchEntry (st : Storage) (matchId : String) :
    Option MatchHistoryEntry :=
  (getMatchHistory st matchId).getLast?

/-- `InMemoryMatchHistoryStorage.insertMatchRecord`: append to the id's
history (creating it when absent). -/
def insertMatchRecord (st : Storage) (matchId : String)
    (entry : MatchHistoryEntry) : Storage :=
  jsObjSet st matchId (getMatchHistory st matchId ++ [entry])

/-- `InMemoryMatchHistoryStorage.getAllMatchIds`. -/
def getAllMatchIds (st : Storage) : List String := st.map Prod.fst

/-- `InMemoryMatchHistoryStorage.getAllMatchIdsByStatus`: ids whose last
entry's status equals `status`, in `Map` insertion order.  (The source reads
`entries[entries.length-1].matchStatus` unguarded; an empty history would
throw — the well-formedness invariant below rules that state out.) -/
def getAllMatchIdsByStatus (st : Storage) (status : String) : List String :=
  (st.filter fun p =>
    match p.2.getLast? with
    | some e => decide (e.matchStatus = status)
    | none => false).map Prod.fst

/-- Status of the current entry of a match, if any. -/
def currentStatus (st : Storage) (matchId : String) : Option String :=
  (getCurrentMatchEntry st matchId).map (·.matchStatus)

/-- Well-formedness of a storage value as a JS `Map` can actually produce it:
keys are unique and no history is empty. -/
def WFStorage (st : Storage) : Prop :=
  (st.map Prod.fst).Nodup ∧ ∀ p ∈ st, p.2 ≠ ([] : List MatchHistoryEntry)

instance : DecidablePred WFStorage := fun st => by
  unfold WFStorage; infer_instance

/-- `BaseMatchHistoryStorage.processMatchUpdate`: always parse the record
(the mapper throws on a bad line even when the dedup rule would skip it), and
append a freshly rendered entry only when there is no current entry or the
current entry's `rawData` differs byte-wise from the record. -/
def processMatchUpdate (d : GuidDict) (now : ℕ) (st : Storage)
    (matchId record : String) : Except JsError Storage :=
  let currentEntry := getCurrentMatchEntry st matchId
  match parseRecord record with
  | .error e => .error e
  | .ok parsed =>
    if currentEntry = none ∨ currentEntry.map (·.rawData) ≠ some record then
      match renderMatchObject d (some parsed) with
      | .error e => .error e
      | .ok rendered =>
        .ok (insertMatchRecord st matchId
          { timestamp := now, rawData := record,
            renderedData := some rendered, matchStatus := rendered.2.status })
    else .ok st

/-- The per-record loop of `BaseMatchHistoryStorage.onEndpointChange`:
validate each line's first comma field as a UUID and process it.  A thrown
error aborts the loop but keeps the mutations of the earlier lines. -/
def processLines (d : GuidDict) (now : ℕ) :
    Storage → List String → Storage × Option JsError
  | st, [] => (st, none)
  | st, record :: rest =>
    let matchId := (splitOnChar ',' record).headD ""
    if ¬ isUuid matchId then (st, some (.validation "Invalid match ID format"))
    else
      match processMatchUpdate d now st matchId record with
      | .error e => (st, some e)
      | .ok st1 => processLines d now st1 rest

/-- One iteration of `markMissingLiveMatchesAsRemoved`'s loop: re-parse the
current entry's raw line, re-render it, override a truthy status to REMOVED,
and append the synthetic `"(Generated)"` entry. -/
def sweepOne (d : GuidDict) (now : ℕ) (st : Storage) (removedId : String) :
    Except JsError Storage :=
  match getCurrentMatchEntry st removedId with
  | none => .error (.typeError "Cannot read properties of undefined (reading rawData)")
  | some lastEntry =>
    match parseRecord lastEntry.rawData with
    | .error e => .error e
    | .ok parsed =>
      match renderMatchObject d (some parsed) with
      | .error e => .error e
      | .ok (rid, mm) =>
        let mm2 := if mm.status ≠ "" then { mm with status := "REMOVED" } else mm
        .ok (insertMatchRecord st removedId
          { timestamp := now, rawData := "(Generated)",
            renderedData := some (rid, mm2), matchStatus := "REMOVED" })

/-- The fold of `markMissingLiveMatchesAsRemoved` over the missing LIVE ids;
an error keeps the entries generated so far. -/
def sweepList (d : GuidDict) (now : ℕ) :
    Storage → List String → Storage × Option JsError
  | st, [] => (st, none)
  | st, removedId :: rest =>
    match sweepOne d now st removedId with
    | .error e => (st, some e)
    | .ok st1 => sweepList d now st1 rest

/-- `markMissingLiveMatchesAsRemoved`: sweep the ids whose current status is
LIVE and that are absent from the snapshot's active id list. -/
def markMissingLiveMatchesAsRemoved (d : GuidDict) (now : ℕ) (st : Storage)
    (activeMatchIds : List String) : Storage × Option JsError :=
  sweepList d now st
    ((getAllMatchIdsByStatus st "LIVE").filter
      (fun i => !(activeMatchIds.contains i)))

/-- The snapshot's record lines: split `odds` on newlines and keep lines with
non-whitespace content (`record.trim().length > 0`). -/
def oddsRecords (odds : String) : List String :=
  (splitOnChar '\n' odds).filter (fun r => jsTrim r ≠ "")

/-- Field 0 of a record line. -/
def firstField (record : String) : String :=
  (splitOnChar ',' record).headD ""

/-- The snapshot's `activeMatchIds` (field 0 of every record, in order).  The
source accumulates this list inside the same loop that can throw; on the
success path — the только path on which the list is ever read — it equals this
full list. -/
def activeIdsOf (odds : String) : List String :=
  (oddsRecords odds).map firstField

/-- `BaseMatchHistoryStorage.onEndpointChange` given the payload's `odds`
string: process every record line, then (only if no line threw) run the
REMOVED sweep.  The first component is the store contents afterwards, the
second the propagated error, if any. -/
def storageOnEndpointChange (d : GuidDict) (now : ℕ) (st : Storage)
    (odds : String) : Storage × Option JsError :=
  match processLines d now st (oddsRecords odds) with
  | (st1, some e) => (st1, some e)
  | (st1, none) => markMissingLiveMatchesAsRemoved d now st1 (activeIdsOf odds)

/-- The `GuidMapper`'s cache (`private readonly mappings`), an
insertion-ordered association list standing for the JS `Map`. -/
abbrev Mappings : Type := List (String × String)

/-- `GuidMapper.parseEntries`: split the dictionary payload on `;`, drop empty
segments, and for each segment take the first two `:`-separated components
trimmed (a missing or empty component is falsy → `ValidationError`), then
validate the guid (an invalid one is re-thrown as `Invalid Guid`).  An empty
result list is `No valid entries found`. -/
def parseEntries (data : String) : Except JsError Mappings :=
  match ((splitOnChar ';' data).filter (· ≠ "")).mapM (fun seg => do
      let parts := (splitOnChar ':' seg).map jsTrim
      let guid := parts.headD ""
      let value := (parts.drop 1).headD ""
      if guid = "" ∨ value = "" then
        Except.error (JsError.validation "Guid or Value empty")
      else if ¬ isUuid guid then
        Except.error (JsError.validation "Invalid Guid")
      else
        Except.ok (guid, value)) with
  | .error e => .error e
  | .ok entries =>
    if entries.length = 0 then .error (.validation "No valid entries found")
    else .ok entries

/-- First key of the list that already occurred earlier in it (the guid at
which the source's `seenGuids` loop throws), scanning left to right. -/
def firstRepeatedKey (seen : List String) : List String → Option String
  | [] => none
  | g :: rest =>
    if seen.contains g then some g else firstRepeatedKey (g :: seen) rest

/-- `GuidMapper.fetchAndUpdateMappings`, with the upstream response's
`mappings` string passed in (`none` models a response without the property;
the empty string is falsy too → `Invalid response format`).  All validation
happens before any mutation, so an error leaves the cache untouched; on
success every new pair is added. -/
def fetchAndUpdateMappings (m : Mappings) (resp : Option String) :
    Except JsError Mappings :=
  match resp with
  | none => .error (.validation "Invalid response format")
  | some s =>
    if s = "" then .error (.validation "Invalid response format")
    else
      match parseEntries s with
      | .error e => .error e
      | .ok newEntries =>
        match firstRepeatedKey [] (newEntries.map Prod.fst) with
        | some g =>
          .error (.validation ("Duplicate GUID found in new entries: " ++ g))
        | none =>
          match (newEntries.map Prod.fst).find?
              (fun g => (jsObjGet m g).isSome) with
          | some g => .error (.validation ("Duplicate GUID found: " ++ g))
          | none =>
            .ok (newEntries.foldl (fun acc p => jsObjSet acc p.1 p.2) m)

/-- Truthy cache lookup (`const existing = this.mappings.get(guid);
if (existing) ...`): an empty-string binding is falsy and treated as absent. -/
def truthyLookup (m : Mappings) (guid : String) : Option String :=
  match jsObjGet m guid with
  | some v => if v = "" then none else some v
  | none => none

/-- `GuidMapper.get`, with the upstream response passed in for the
fetch-on-miss path.  Returns the cache afterwards together with the result or
thrown error (on the miss path the cache retains a successful fetch's merge
even when the guid is still missing afterwards). -/
def gmGet (m : Mappings) (resp : Option String) (guid : String) :
    Mappings × Except JsError String :=
  if ¬ isUuid guid then
    (m, .error (.validation ("Invalid GUID format: " ++ guid)))
  else
    match truthyLookup m guid with
    | some v => (m, .ok v)
    | none =>
      match fetchAndUpdateMappings m resp with
      | .error e => (m, .error e)
      | .ok m1 =>
        match truthyLookup m1 guid with
        | some v => (m1, .ok v)
        | none => (m1, .error (.guidNotFound guid))

/-- A `ValidationError` of the duplicate-binding kind (either of the two
`Duplicate GUID found` messages of `fetchAndUpdateMappings`). -/
def isDuplicateBindingError : JsError → Bool
  | .validation msg =>
    (msg.data.take 20) = "Duplicate GUID found".data.take 20
  | _ => false

/-- 32-bit truncation. -/
def w32 (n : ℕ) : ℕ := n % 4294967296

/-- 32-bit right rotation. -/
def rotr32 (n x : ℕ) : ℕ :=
  w32 ((x >>> n) + ((x % (2 ^ n)) <<< (32 - n)))

/-- 32-bit complement (operands are < 2^32). -/
def not32 (x : ℕ) : ℕ := 4294967295 - x

/-- The SHA-256 round constants (FIPS 180-4), in decimal. -/
def sha256K : List ℕ :=
  [1116352408, 1899447441, 3049323471, 3921009573, 961987163,
   1508970993, 2453635748, 2870763221, 3624381080, 310598401,
   607225278, 1426881987, 1925078388, 2162078206, 2614888103,
   3248222580, 3835390401, 4022224774, 264347078, 604807628,
   770255983, 1249150122, 1555081692, 1996064986, 2554220882,
   2821834349, 2952996808, 3210313671, 3336571891, 3584528711,
   113926993, 338241895, 666307205, 773529912, 1294757372,
   1396182291, 1695183700, 1986661051, 2177026350, 2456956037,
   2730485921, 2820302411, 3259730800, 3345764771, 3516065817,
   3600352804, 4094571909, 275423344, 430227734, 506948616,
   659060556, 883997877, 958139571, 1322822218, 1537002063,
   1747873779, 1955562222, 2024104815, 2227730452, 2361852424,
   2428436474, 2756734187, 3204031479, 3329325298]

/-- The eight working words of the SHA-256 state. -/
structure Hash8 where
  a : ℕ
  b : ℕ
  c : ℕ
  d : ℕ
  e : ℕ
  f : ℕ
  g : ℕ
  h : ℕ
deriving DecidableEq

/-- The SHA-256 initial hash value. -/
def sha256H0 : Hash8 :=
  { a := 1779033703, b := 3144134277, c := 1013904242, d := 2773480762,
    e := 1359893119, f := 2600822924, g := 528734635, h := 1541459225 }

/-- Big-endian 8-byte encoding of a (< 2^64) natural. -/
def beBytes8 (n : ℕ) : List ℕ :=
  [n >>> 56 % 256, n >>> 48 % 256, n >>> 40 % 256, n >>> 32 % 256,
   n >>> 24 % 256, n >>> 16 % 256, n >>> 8 % 256, n % 256]

/-- SHA-256 message padding: append `0x80`, zeros to 56 mod 64, then the bit
length as 8 big-endian bytes. -/
def sha256Pad (msg : List ℕ) : List ℕ :=
  msg ++ [0x80] ++ List.replicate ((64 - ((msg.length + 9) % 64)) % 64) 0 ++
    beBytes8 (8 * msg.length)

/-- Big-endian 32-bit words of a byte list (length a multiple of 4), with a
structural fuel argument so the kernel can evaluate it. -/
def beWordsAux : ℕ → List ℕ → List ℕ
  | 0, _ => []
  | _, [] => []
  | fuel + 1, b0 :: b1 :: b2 :: b3 :: rest =>
    (((b0 * 256 + b1) * 256 + b2) * 256 + b3) :: beWordsAux fuel rest
  | _ + 1, _ => []

/-- The 64-word message schedule extended from a block's 16 words. -/
def sha256Schedule (ws : List ℕ) : List ℕ :=
  (List.range 48).foldl (fun w _ =>
    let n := w.length
    let s0 :=
      let x := w.getD (n - 15) 0
      (rotr32 7 x) ^^^ (rotr32 18 x) ^^^ (x >>> 3)
    let s1 :=
      let x := w.getD (n - 2) 0
      (rotr32 17 x) ^^^ (rotr32 19 x) ^^^ (x >>> 10)
    w ++ [w32 (w.getD (n - 16) 0 + s0 + w.getD (n - 7) 0 + s1)]) ws

/-- The SHA-256 compression of one 16-word block into the running hash. -/
def sha256Compress (hs : Hash8) (blockWords : List ℕ) : Hash8 :=
  let w := sha256Schedule blockWords
  let final := (List.range 64).foldl (fun s i =>
    let S1 := (rotr32 6 s.e) ^^^ (rotr32 11 s.e) ^^^ (rotr32 25 s.e)
    let ch := (s.e &&& s.f) ^^^ ((not32 s.e) &&& s.g)
    let temp1 := w32 (s.h + S1 + ch + sha256K.getD i 0 + w.getD i 0)
    let S0 := (rotr32 2 s.a) ^^^ (rotr32 13 s.a) ^^^ (rotr32 22 s.a)
    let maj := (s.a &&& s.b) ^^^ (s.a &&& s.c) ^^^ (s.b &&& s.c)
    let temp2 := w32 (S0 + maj)
    { a := w32 (temp1 + temp2), b := s.a, c := s.b, d := s.c,
      e := w32 (s.d + temp1), f := s.e, g := s.f, h := s.g }) hs
  { a := w32 (hs.a + final.a), b := w32 (hs.b + final.b),
    c := w32 (hs.c + final.c), d := w32 (hs.d + final.d),
    e := w32 (hs.e + final.e), f := w32 (hs.f + final.f),
    g := w32 (hs.g + final.g), h := w32 (hs.h + final.h) }

/-- Fold the compression over the padded message's 64-byte blocks (fuel is the
remaining byte count, which strictly decreases). -/
def sha256Blocks : ℕ → Hash8 → List ℕ → Hash8
  | 0, hs, _ => hs
  | _, hs, [] => hs
  | fuel + 1, hs, bytes =>
    sha256Blocks fuel (sha256Compress hs (beWordsAux 64 (bytes.take 64)))
      (bytes.drop 64)

/-- One lower-case hexadecimal digit character. -/
def hexDigitChar (n : ℕ) : Char :=
  if n < 10 then Char.ofNat ('0'.toNat + n)
  else Char.ofNat ('a'.toNat + (n - 10))

/-- Eight hex characters of one 32-bit word. -/
def wordHex (x : ℕ) : List Char :=
  [hexDigitChar (x >>> 28 % 16), hexDigitChar (x >>> 24 % 16),
   hexDigitChar (x >>> 20 % 16), hexDigitChar (x >>> 16 % 16),
   hexDigitChar (x >>> 12 % 16), hexDigitChar (x >>> 8 % 16),
   hexDigitChar (x >>> 4 % 16), hexDigitChar (x % 16)]

/-- `createHash('sha256').update(buffer).digest('hex')`: the SHA-256 digest of
a byte list as a 64-character lower-case hex string. -/
def sha256Hex (bytes : List ℕ) : String :=
  let padded := sha256Pad bytes
  let hs := sha256Blocks padded.length sha256H0 padded
  String.mk (wordHex hs.a ++ wordHex hs.b ++ wordHex hs.c ++ wordHex hs.d ++
    wordHex hs.e ++ wordHex hs.f ++ wordHex hs.g ++ wordHex hs.h)

set_option maxRecDepth 10000 in
example : sha256Hex [] =
    "e3b0c44298fc1c149afbf4c8996fb92427ae41e4649b934ca495991b7852b855" := by
  decide
set_option maxRecDepth 10000 in
example : sha256Hex [0x61, 0x62, 0x63] =
    "ba7816bf8f01cfea414140de5dae2223b00361a396177a9cb410ff61f20015ad" := by
  decide

/-- The U+FFFD replacement character emitted by `TextDecoder` for invalid
sequences. -/
def replacementChar : Char := Char.ofNat 0xFFFD

/-- Scalar-value constructor that falls back to U+FFFD (surrogate code points
cannot be materialised as `Char`s). -/
def charOr (n : ℕ) : Char :=
  if n.isValidChar then Char.ofNat n else replacementChar

/-- WHATWG UTF-8 decoding with replacement (the `TextDecoder('utf-8')`
default), written with a structural fuel argument; continuation bytes are
checked to be in `80..BF` and out-of-range leading bytes, truncated sequences,
overlongs via the restricted second-byte ranges, and surrogates are replaced
by U+FFFD. -/
def utf8DecodeAux : ℕ → List ℕ → List Char
  | 0, _ => []
  | _, [] => []
  | fuel + 1, b :: rest =>
    let cont := fun b2 => 0x80 ≤ b2 ∧ b2 ≤ 0xbf
    if b ≤ 0x7f then charOr b :: utf8DecodeAux fuel rest
    else if 0xc2 ≤ b ∧ b ≤ 0xdf then
      match rest with
      | b2 :: rest2 =>
        if cont b2 then charOr ((b - 0xc0) * 64 + (b2 - 0x80)) :: utf8DecodeAux fuel rest2
        else replacementChar :: utf8DecodeAux fuel rest
      | [] => [replacementChar]
    else if 0xe0 ≤ b ∧ b ≤ 0xef then
      match rest with
      | b2 :: rest2 =>
        let lo2 := if b = 0xe0 then 0xa0 else 0x80
        let hi2 := if b = 0xed then 0x9f else 0xbf
        if lo2 ≤ b2 ∧ b2 ≤ hi2 then
          match rest2 with
          | b3 :: rest3 =>
            if cont b3 then
              charOr (((b - 0xe0) * 64 + (b2 - 0x80)) * 64 + (b3 - 0x80)) ::
                utf8DecodeAux fuel rest3
            else replacementChar :: utf8DecodeAux fuel rest2
          | [] => [replacementChar]
        else replacementChar :: utf8DecodeAux fuel rest
      | [] => [replacementChar]
    else if 0xf0 ≤ b ∧ b ≤ 0xf4 then
      match rest with
      | b2 :: rest2 =>
        let lo2 := if b = 0xf0 then 0x90 else 0x80
        let hi2 := if b = 0xf4 then 0x8f else 0xbf
        if lo2 ≤ b2 ∧ b2 ≤ hi2 then
          match rest2 with
          | b3 :: rest3 =>
            if cont b3 then
              match rest3 with
              | b4 :: rest4 =>
                if cont b4 then
                  charOr ((((b - 0xf0) * 64 + (b2 - 0x80)) * 64 + (b3 - 0x80)) * 64
                    + (b4 - 0x80)) :: utf8DecodeAux fuel rest4
                else replacementChar :: utf8DecodeAux fuel rest3
              | [] => [replacementChar]
            else replacementChar :: utf8DecodeAux fuel rest2
          | [] => [replacementChar]
        else replacementChar :: utf8DecodeAux fuel rest
      | [] => [replacementChar]
    else replacementChar :: utf8DecodeAux fuel rest

/-- `new TextDecoder('utf-8').decode(bytes)`. -/
def utf8Decode (bytes : List ℕ) : String :=
  String.mk (utf8DecodeAux bytes.length bytes)

example : utf8Decode [0x4e, 0x65, 0x77] = "New" := by decide

/-- `PollerState` of `endpointpoller.ts`. -/
inductive PollerMode where
  | INITIALIZING : PollerMode
  | POLLING : PollerMode
  | BACKING_OFF : PollerMode
  | ERROR : PollerMode
deriving DecidableEq

/-- The mutable fields of `EndpointPoller`, together with the readonly
constructor parameters `requestDelayMs` and `url`.  (`pollPromiseResolve` and
the axios instance are I/O plumbing and are not modelled.) -/
structure PollerSt where
  requestDelayMs : ℕ
  url : String
  lastSuccessfulRequest : ℕ
  currentBackoffDelay : ℕ
  lastChecksum : String
  currentState : PollerMode
  isPolling : Bool
deriving DecidableEq

/-- A freshly constructed `EndpointPoller`. -/
def mkPoller (requestDelayMs : ℕ) (url : String) : PollerSt :=
  { requestDelayMs, url, lastSuccessfulRequest := 0,
    currentBackoffDelay := 1000, lastChecksum := "",
    currentState := .INITIALIZING, isPolling := false }

/-- A change listener: receives `(url, decodedBody)` and either completes or
throws. -/
abbrev ChangeListener : Type := String → String → Except JsError Unit

/-- `addChangeListener`: push onto the listener array, so list order is
registration order. -/
def addChangeListener (ls : List ChangeListener) (l : ChangeListener) :
    List ChangeListener :=
  ls ++ [l]

/-- The serial notification loop of `performRequest`: call each listener in
array order with `(url, data)`, recording each call as `(index, url, data)`,
and stop at (and rethrow) the first listener error. -/
def notifyFrom (url data : String) :
    List ChangeListener → ℕ → List (ℕ × String × String) × Option JsError
  | [], _ => ([], none)
  | l :: rest, i =>
    match l url data with
    | .error e => ([(i, url, data)], some e)
    | .ok _ =>
      let (tr, err) := notifyFrom url data rest (i + 1)
      ((i, url, data) :: tr, err)

/-- `performRequest` after a successful HTTP GET whose body is `bytes`:
compute the SHA-256 hex checksum; when it differs from `lastChecksum`, update
the checksum first and then notify all listeners serially with the UTF-8
decoded body; a listener error escapes before `lastSuccessfulRequest` is
touched (but after the checksum update).  Returns the poller state, the calls
made, and the escaped error if any. -/
def performRequest (st : PollerSt) (ls : List ChangeListener) (bytes : List ℕ)
    (now : ℕ) : PollerSt × List (ℕ × String × String) × Option JsError :=
  let newChecksum := sha256Hex bytes
  if st.lastChecksum ≠ newChecksum then
    let st1 := { st with lastChecksum := newChecksum }
    let decodedData := utf8Decode bytes
    match notifyFrom st.url decodedData ls 0 with
    | (tr, some e) => (st1, tr, some e)
    | (tr, none) => ({ st1 with lastSuccessfulRequest := now }, tr, none)
  else ({ st with lastSuccessfulRequest := now }, [], none)

/-- `handleError`: enter BACKING_OFF, double the backoff capped at
`MAX_BACKOFF_DELAY = 10000`, and (when still polling) sleep the new backoff.
Returns the state and the slept milliseconds. -/
def handleError (st : PollerSt) : PollerSt × ℕ :=
  let st1 := { st with
    currentState := .BACKING_OFF,
    currentBackoffDelay := min (st.currentBackoffDelay * 2) 10000 }
  (st1, if st1.isPolling then st1.currentBackoffDelay else 0)

/-- Outcome of one HTTP GET: a 2xx response with its raw bytes, or a transport
error / timeout / non-2xx status. -/
inductive FetchOutcome where
  | ok : List ℕ → FetchOutcome
  | fail : FetchOutcome

/-- One iteration of `poll`'s while loop: run `performRequest`; on success
reset the backoff to 1000 and the state to POLLING and sleep the configured
interval (when positive); on any thrown error set ERROR and run
`handleError`.  Returns the state, the listener calls, the slept milliseconds,
and the trace of `currentState` assignments made during the iteration. -/
def pollCycle (st : PollerSt) (ls : List ChangeListener) (fetch : FetchOutcome)
    (now : ℕ) : PollerSt × List (ℕ × String × String) × ℕ × List PollerMode :=
  match fetch with
  | .fail =>
    let (st2, slept) := handleError { st with currentState := .ERROR }
    (st2, [], slept, [.ERROR, .BACKING_OFF])
  | .ok bytes =>
    match performRequest st ls bytes now with
    | (st1, tr, some _) =>
      let (st2, slept) := handleError { st1 with currentState := .ERROR }
      (st2, tr, slept, [.ERROR, .BACKING_OFF])
    | (st1, tr, none) =>
      ({ st1 with currentBackoffDelay := 1000, currentState := .POLLING }, tr,
        (if st.requestDelayMs > 0 ∧ st1.isPolling then st.requestDelayMs else 0),
        [.POLLING])

/-- `startPolling`: a no-op when already polling, otherwise set `isPolling`
and enter POLLING (the loop itself is `pollCycle`). -/
def startPolling (st : PollerSt) : PollerSt :=
  if st.isPolling then st
  else { st with isPolling := true, currentState := .POLLING }

/-- `stopPolling`: clear `isPolling` and return to INITIALIZING.  Note that
neither `lastChecksum` nor `currentBackoffDelay` is touched. -/
def stopPolling (st : PollerSt) : PollerSt :=
  { st with isPolling := false, currentState := .INITIALIZING }

/-- Iterated failing cycles (for the backoff claim): the state after `k`
consecutive failed polls and the milliseconds slept after the last of them. -/
def iterateFailCycles (st : PollerSt) : ℕ → PollerSt × ℕ
  | 0 => (st, 0)
  | k + 1 =>
    let (st1, _) := iterateFailCycles st k
    let (st2, _, slept, _) := pollCycle st1 [] .fail 0
    (st2, slept)

/-- Is a converted number a finite integer (the spec's reading of rule 3)? -/
def isFiniteInteger : JsNum → Bool
  | .fin q => q.den = 1
  | _ => false

/-- Rule 4 exactly as the claim states it: the segment splits on `@` into a
UUID period id and a `:`-separated pair of two integers. -/
def specGoalSegmentBad (seg : String) : Bool :=
  match splitOnChar '@' seg with
  | [p, s] =>
    !(isUuid p) ||
      (match splitOnChar ':' s with
       | [h, a] =>
         !(isFiniteInteger (jsStringToNumber h)) ||
           !(isFiniteInteger (jsStringToNumber a))
       | _ => true)
  | _ => true

/-- The claim's four validation rules, as written: `parse(line)` should fail
exactly when this predicate holds (rule 3 demands a finite integer, rule 4 a
well-formed pair of two integers). -/
def specRecordInvalid (line : String) : Bool :=
  let fields := splitOnChar ',' line
  decide (fields.length < 7) || decide (fields.length > 8) ||
  ([0, 1, 2, 4, 5, 6].any fun i => !(isUuid (fields.getD i ""))) ||
  !(isFiniteInteger (jsStringToNumber (fields.getD 3 ""))) ||
  (decide (fields.length = 8) && decide (fields.getD 7 "" ≠ "") &&
    (splitOnChar '|' (fields.getD 7 "")).any specGoalSegmentBad)

/-- A goals segment the code actually rejects: the part before the first `@`
is not a UUID; or there is no `@` at all (then the UUID-prefixed segment dies
with a `TypeError` on `scores.split`); or of the `:`-separated components of
the part between the first and second `@`, the first two (a missing one being
`undefined`) do not both convert to non-NaN numbers. -/
def codeGoalSegmentBad (seg : String) : Bool :=
  let parts := splitOnChar '@' seg
  !(isUuid (parts.headD "")) || decide (parts.length < 2) ||
    (let nums := (splitOnChar ':' (parts.getD 1 "")).map jsStringToNumber
     jsIsNaN (nums.headD .nan) || jsIsNaN ((nums.drop 1).headD .nan))

/-- The validation rules the code actually implements (the amended claim):
wrong comma count; a non-UUID among fields 0,1,2,4,5,6; field 3 whose
`Number` conversion is NaN (any non-NaN number, finite or not, integer or
not, passes); or, for a present non-empty field 7, some `|`-segment failing
`codeGoalSegmentBad`. -/
def codeRecordInvalid (line : String) : Bool :=
  let fields := splitOnChar ',' line
  decide (fields.length < 7) || decide (fields.length > 8) ||
  ([0, 1, 2, 4, 5, 6].any fun i => !(isUuid (fields.getD i ""))) ||
  jsIsNaN (jsStringToNumber (fields.getD 3 "")) ||
  (decide (fields.length = 8) && decide (fields.getD 7 "" ≠ "") &&
    (splitOnChar '|' (fields.getD 7 "")).any codeGoalSegmentBad)

/-- Whether an `Except` result is a success. -/
def exceptOk {ε α : Type} : Except ε α → Bool
  | .ok _ => true
  | .error _ => false

/-- Unwrap an `Except` with a default (used only to state concrete runs). -/
def exceptD {ε α : Type} (x : Except ε α) (dflt : α) : α :=
  match x with
  | .ok a => a
  | .error _ => dflt

/-- Match id of the worked S1 example of the spec. -/
def uMatch : String := "ec517b6c-6ed8-4449-ad9b-0a1dbbbf8fb9"

/-- Sport id (FOOTBALL). -/
def uSport : String := "9860e748-1f53-45ed-9a3f-2eeb46550083"

/-- Competition id (UEFA Champions League). -/
def uComp : String := "13605dbb-fb95-4373-8354-dbce8272086c"

/-- Home competitor id (Bayern Munich). -/
def uHome : String := "c22ca89b-50db-4a90-84d3-25daf31de9db"

/-- Away competitor id (Juventus). -/
def uAway : String := "54963ddf-ddc6-41b6-a7d1-3e2b76f531c0"

/-- Status id (LIVE). -/
def uLive : String := "93f346fd-c921-4f67-b4c3-64fe1f466140"

/-- Period id (CURRENT). -/
def uCur : String := "5c3a00b4-6dca-4439-8340-9eba10777517"

/-- A second match id (used for snapshots with two matches). -/
def uMatch2 : String := "08c9dcb8-b231-4651-9e66-acbd9a0a7010"

/-- A status id resolving to PRE. -/
def uPre : String := "7e373f85-3dd1-4b8a-8e9b-5bd0cbe22e64"

/-- The resolver cache used by all concrete runs. -/
def testDict : GuidDict := fun g =>
  if g = uSport then some "FOOTBALL"
  else if g = uComp then some "UEFA Champions League"
  else if g = uHome then some "Bayern Munich"
  else if g = uAway then some "Juventus"
  else if g = uLive then some "LIVE"
  else if g = uCur then some "CURRENT"
  else if g = uPre then some "PRE"
  else none

/-- A seven-field record for `uMatch` with status LIVE and start time `t`
(passed as the literal text of field 3). -/
def mkRecord (t : String) : String :=
  uMatch ++ "," ++ uSport ++ "," ++ uComp ++ "," ++ t ++ "," ++ uHome ++ ","
    ++ uAway ++ "," ++ uLive

example : exceptOk (parseRecord (mkRecord "1729839678453")) = true := by decide
/-- A dummy parsed record used as the `exceptD` default in concrete runs. -/
def emptyParsed : ParsedRecord :=
  { rawData := "", id := "", sportId := "", leagueId := "", startTime := .nan,
    homeTeamId := "", awayTeamId := "", statusId := "", goals := [] }

example :
    (exceptD (parseRecord (mkRecord "1729839678453")) emptyParsed).id = uMatch := by
  decide

theorem jsObjGet_jsObjSet {α : Type} (l : List (String × α)) (k k' : String)
    (v : α) :
    jsObjGet (jsObjSet l k v) k' = if k' = k then some v else jsObjGet l k' := by
  induction l with
  | nil =>
    by_cases hk : k = k' <;>
      simp_all [jsObjSet, jsObjGet] <;>
      rw [if_neg (fun hc => hk hc.symm)]
  | cons p rest ih =>
    obtain ⟨k0, v0⟩ := p
    by_cases h : k0 = k <;> by_cases h2 : k0 = k' <;> by_cases h3 : k' = k <;>
      simp_all [jsObjSet, jsObjGet, ih]

theorem jsObjSet_map_fst {α : Type} (l : List (String × α)) (k : String)
    (v : α) :
    (jsObjSet l k v).map Prod.fst =
      if k ∈ l.map Prod.fst then l.map Prod.fst else l.map Prod.fst ++ [k] := by
  induction l with
  | nil => simp [jsObjSet]
  | cons p rest ih =>
    obtain ⟨k0, v0⟩ := p
    by_cases h : k0 = k
    · subst h; simp [jsObjSet]
    · have hne : ¬ k = k0 := fun hc => h hc.symm
      by_cases hm : k ∈ rest.map Prod.fst <;>
        simp [jsObjSet, h, ih, hm, hne]

theorem jsObjSet_nodup {α : Type} (l : List (String × α)) (k : String) (v : α)
    (h : (l.map Prod.fst).Nodup) : ((jsObjSet l k v).map Prod.fst).Nodup := by
  rw [jsObjSet_map_fst]
  by_cases hm : k ∈ l.map Prod.fst
  · simpa [hm]
  · simpa [hm, List.nodup_append] using h

theorem mem_jsObjSet {α : Type} (l : List (String × α)) (k : String) (v : α)
    (p : String × α) (hp : p ∈ jsObjSet l k v) : p = (k, v) ∨ p ∈ l := by
  induction l with
  | nil => simpa [jsObjSet] using hp
  | cons q rest ih =>
    obtain ⟨k0, v0⟩ := q
    by_cases h : k0 = k
    · subst h
      simp only [jsObjSet, if_pos rfl] at hp
      rcases List.mem_cons.mp hp with hp1 | hp1
      · exact Or.inl hp1
      · exact Or.inr (List.mem_cons_of_mem _ hp1)
    · simp only [jsObjSet, if_neg h] at hp
      rcases List.mem_cons.mp hp with hp1 | hp1
      · exact Or.inr (by simp [hp1])
      · rcases ih hp1 with h1 | h1
        · exact Or.inl h1
        · exact Or.inr (List.mem_cons_of_mem _ h1)

theorem jsObjGet_eq_some_of_mem {α : Type} (l : List (String × α))
    (k : String) (v : α) (hnd : (l.map Prod.fst).Nodup) (hm : (k, v) ∈ l) :
    jsObjGet l k = some v := by
  induction l with
  | nil => cases hm
  | cons p rest ih =>
    obtain ⟨k0, v0⟩ := p
    simp only [List.map_cons, List.nodup_cons] at hnd
    rcases List.mem_cons.mp hm with hm1 | hm1
    · rw [Prod.mk.injEq] at hm1
      obtain ⟨h1, h2⟩ := hm1
      subst h1; subst h2
      simp [jsObjGet]
    · have hk : ¬ k0 = k := by
        intro hc
        subst hc
        exact hnd.1 (by simpa using List.mem_map_of_mem Prod.fst hm1)
      simp only [jsObjGet, if_neg hk]
      exact ih hnd.2 hm1

theorem mem_of_jsObjGet_eq_some {α : Type} (l : List (String × α))
    (k : String) (v : α) (h : jsObjGet l k = some v) : (k, v) ∈ l := by
  induction l with
  | nil => simp [jsObjGet] at h
  | cons p rest ih =>
    obtain ⟨k0, v0⟩ := p
    by_cases hk : k0 = k
    · subst hk
      simp only [jsObjGet, eq_self_iff_true, if_true, Option.some.injEq] at h
      subst h
      exact List.mem_cons_self _ _
    · simp only [jsObjGet, if_neg hk] at h
      exact List.mem_cons_of_mem _ (ih h)

theorem parseGoalSegment_ok_iff (seg : String) :
    exceptOk (parseGoalSegment seg) = !(codeGoalSegmentBad seg) := by
  have h0 : isUuid "" = false := by decide
  simp only [parseGoalSegment, codeGoalSegmentBad]
  cases hparts : splitOnChar '@' seg with
  | nil => simp [h0, exceptOk]
  | cons p rest =>
    by_cases hUp : isUuid p = true
    · cases rest with
      | nil => simp [hUp, exceptOk]
      | cons scores rest2 =>
        cases hA : jsIsNaN ((Option.map jsStringToNumber
            (splitOnChar ':' scores).head?).getD JsNum.nan) <;>
          cases hB : jsIsNaN ((Option.map jsStringToNumber
              (splitOnChar ':' scores)[1]?).getD JsNum.nan) <;>
            simp [hUp, hA, hB, exceptOk, List.getD]
    · have hUp' : isUuid p = false := Bool.eq_false_iff.mpr hUp
      simp [hUp', exceptOk]

theorem mapGoals_ok_iff (segs : List String) :
    exceptOk (mapGoals segs) = !(segs.any codeGoalSegmentBad) := by
  induction segs with
  | nil => simp [mapGoals, exceptOk]
  | cons s rest ih =>
    have hs := parseGoalSegment_ok_iff s
    simp only [mapGoals, List.any_cons]
    cases hps : parseGoalSegment s with
    | error e =>
      rw [hps] at hs
      simp only [exceptOk] at hs
      simp [exceptOk, ← hs]
    | ok g =>
      rw [hps] at hs
      simp only [exceptOk] at hs
      cases hmr : mapGoals rest with
      | error e =>
        rw [hmr] at ih
        simp only [exceptOk] at ih
        simp [exceptOk, ← hs, ← ih]
      | ok gs =>
        rw [hmr] at ih
        simp only [exceptOk] at ih
        simp [exceptOk, ← hs, ← ih]

theorem parseRecord_ok_iff (line : String) :
    exceptOk (parseRecord line) = !(codeRecordInvalid line) := by
  simp only [parseRecord, codeRecordInvalid]
  by_cases hlen : (splitOnChar ',' line).length < 7 ∨
      (splitOnChar ',' line).length > 8
  · rw [if_pos hlen]
    rcases hlen with h | h
    · simp only [exceptOk, decide_eq_true h, Bool.true_or, Bool.not_true]
    · simp only [exceptOk, decide_eq_true h, Bool.true_or, Bool.or_true,
        Bool.not_true]
  · rw [if_neg hlen]
    push_neg at hlen
    obtain ⟨h7, h8⟩ := hlen
    have d7 : decide ((splitOnChar ',' line).length < 7) = false :=
      decide_eq_false (by omega)
    have d8 : decide ((splitOnChar ',' line).length > 8) = false :=
      decide_eq_false (by omega)
    cases hf : ([0, 1, 2, 4, 5, 6].find? fun i =>
        !(isUuid ((splitOnChar ',' line).getD i ""))) with
    | some i =>
      have hbad := List.find?_some hf
      have hany : ([0, 1, 2, 4, 5, 6].any fun i =>
          !(isUuid ((splitOnChar ',' line).getD i ""))) = true :=
        List.any_eq_true.mpr ⟨i, List.mem_of_find?_eq_some hf, hbad⟩
      simp only [exceptOk, d7, d8, hany, Bool.false_or, Bool.true_or,
        Bool.not_true]
    | none =>
      have hall : ([0, 1, 2, 4, 5, 6].any fun i =>
          !(isUuid ((splitOnChar ',' line).getD i ""))) = false := by
        rw [List.any_eq_false]
        intro i hi
        have := List.find?_eq_none.mp hf i hi
        simpa using this
      cases hnan : jsIsNaN (jsStringToNumber ((splitOnChar ',' line).getD 3 ""))
        with
      | true =>
        simp only [d7, d8, hall, hnan, Bool.false_or, Bool.true_or,
          Bool.not_true]
        simp [exceptOk]
      | false =>
        by_cases hg : (splitOnChar ',' line).length = 8 ∧
            (splitOnChar ',' line).getD 7 "" ≠ ""
        · rw [if_pos hg]
          have hmg := mapGoals_ok_iff (splitOnChar '|'
            ((splitOnChar ',' line).getD 7 ""))
          cases hmgr : mapGoals (splitOnChar '|'
              ((splitOnChar ',' line).getD 7 "")) with
          | error e =>
            rw [hmgr] at hmg
            simp only [exceptOk] at hmg
            have hany2 : ((splitOnChar '|'
                ((splitOnChar ',' line).getD 7 "")).any codeGoalSegmentBad) =
                true := by
              cases hx : ((splitOnChar '|'
                  ((splitOnChar ',' line).getD 7 "")).any codeGoalSegmentBad)
              · rw [hx] at hmg; simp at hmg
              · rfl
            simp only [d7, d8, hall, hnan, hany2, decide_eq_true hg.1,
              decide_eq_true hg.2, Bool.false_or, Bool.true_and,
              Bool.and_true, Bool.or_true, Bool.not_true]
            simp [exceptOk]
          | ok gs =>
            rw [hmgr] at hmg
            simp only [exceptOk] at hmg
            have hany2 : ((splitOnChar '|'
                ((splitOnChar ',' line).getD 7 "")).any codeGoalSegmentBad) =
                false := by
              cases hx : ((splitOnChar '|'
                  ((splitOnChar ',' line).getD 7 "")).any codeGoalSegmentBad)
              · rfl
              · rw [hx] at hmg; simp at hmg
            simp only [d7, d8, hall, hnan, hany2, Bool.false_or,
              Bool.and_false, Bool.or_false, Bool.not_false]
            simp [exceptOk]
        · rw [if_neg hg]
          have hbool : (decide ((splitOnChar ',' line).length = 8) &&
              decide ((splitOnChar ',' line).getD 7 "" ≠ "") &&
              ((splitOnChar '|' ((splitOnChar ',' line).getD 7 "")).any
                codeGoalSegmentBad)) = false := by
            rcases Decidable.not_and_iff_or_not.mp hg with h | h
            · simp only [decide_eq_false h, Bool.false_and, Bool.and_false]
            · simp only [decide_eq_false h, Bool.false_and, Bool.and_false]
          simp only [d7, d8, hall, hnan, Bool.false_or]
          rw [hbool]
          simp [exceptOk]

theorem parseRecord_ok_startTime (line : String) (pr : ParsedRecord)
    (h : parseRecord line = .ok pr) :
    pr.startTime = jsStringToNumber ((splitOnChar ',' line).getD 3 "") ∧
      pr.rawData = line ∧ pr.id = (splitOnChar ',' line).getD 0 "" := by
  simp only [parseRecord] at h
  split at h
  · cases h
  · split at h
    · cases h
    · split at h
      · cases h
      · split at h
        · cases h
        · cases h
          simp

/-- C3 (amended): `parse(line)` fails exactly when the rules the code
implements reject the line: wrong comma-split length; a non-UUID among fields
0,1,2,4,5,6; field 3 whose `Number` conversion is NaN; or, when field 7 is
present and non-empty, some `|`-segment with a non-UUID prefix, with no `@`,
or whose first two `:`-components do not both convert to non-NaN numbers.
(The claim's original rule 3 — a finite integer — and rule 4 — exactly a pair
of two integers — are refuted by `C3_counterexample`.) -/
theorem C3_parse_fails_iff (line : String) :
    (∃ e, parseRecord line = .error e) ↔ codeRecordInvalid line = true := by
  have h := parseRecord_ok_iff line
  constructor
  · rintro ⟨e, he⟩
    rw [he] at h
    simp only [exceptOk] at h
    cases hx : codeRecordInvalid line
    · rw [hx] at h; simp at h
    · rfl
  · intro hx
    rw [hx] at h
    simp only [Bool.not_true] at h
    cases hpr : parseRecord line with
    | error e => exact ⟨e, rfl⟩
    | ok pr => rw [hpr] at h; simp [exceptOk] at h

/-- C3's rules as literally written reject `mkRecord "Infinity"` (field 3 is
not a finite integer), yet the code's `parseRecord` accepts it: the claimed
characterization is false at this input. -/
theorem C3_counterexample :
    specRecordInvalid (mkRecord "Infinity") = true ∧
      ¬ (∃ e, parseRecord (mkRecord "Infinity") = .error e) := by
  constructor
  · decide
  · rintro ⟨e, he⟩
    have : exceptOk (parseRecord (mkRecord "Infinity")) = true := by decide
    rw [he] at this
    simp [exceptOk] at this

/-- C10: a record whose field 3 converts to the number 0 (for example the
literal `"0"` or the empty string) passes `parseRecord` (its conversion is not
NaN), but `renderMatchObject` then throws the `Match data not initialized`
`ValidationError`, because the falsy-guard treats the stored start time 0 as
missing; such a record can never be rendered. -/
theorem C10_zero_start_time (line : String) (d : GuidDict)
    (hvalid : codeRecordInvalid line = false)
    (h0 : jsNumFalsy (jsStringToNumber ((splitOnChar ',' line).getD 3 "")) =
      true) :
    ∃ pr, parseRecord line = .ok pr ∧
      renderMatchObject d (some pr) =
        .error (.validation "Match data not initialized. Call parseRecord first.") := by
  have hok := parseRecord_ok_iff line
  rw [hvalid] at hok
  simp only [Bool.not_false] at hok
  cases hpr : parseRecord line with
  | error e => rw [hpr] at hok; simp [exceptOk] at hok
  | ok pr =>
    refine ⟨pr, rfl, ?_⟩
    obtain ⟨hst, _, _⟩ := parseRecord_ok_startTime line pr hpr
    simp only [renderMatchObject]
    rw [if_pos]
    exact Or.inr (Or.inr (Or.inr (Or.inr (Or.inl (by
      rw [hst]; exact h0)))))

theorem C10_witness :
    ∃ pr, parseRecord (mkRecord "0") = .ok pr ∧
      renderMatchObject testDict (some pr) =
        .error (.validation "Match data not initialized. Call parseRecord first.") :=
  C10_zero_start_time (mkRecord "0") testDict (by decide) (by decide)

theorem lsBuildState_lookup_origin (d : GuidDict) (recs : List String) :
    ∀ ns ns' : MatchView, lsBuildState d ns recs = .ok ns' →
      ∀ id mm, jsObjGet ns' id = some mm →
        (∃ record ∈ recs, ∃ pr, parseRecord record = .ok pr ∧
            renderMatchObject d (some pr) = .ok (id, mm) ∧
            includedStateStatuses.contains mm.status = true) ∨
          jsObjGet ns id = some mm := by
  induction recs with
  | nil =>
    intro ns ns' h id mm hm
    simp only [lsBuildState] at h
    cases h
    exact Or.inr hm
  | cons r rest ih =>
    intro ns ns' h id mm hm
    simp only [lsBuildState] at h
    cases hpr : parseRecord r with
    | error e => simp only [hpr] at h; exact absurd h (by simp)
    | ok pr =>
      simp only [hpr] at h
      cases hrm : renderMatchObject d (some pr) with
      | error e => simp only [hrm] at h; exact absurd h (by simp)
      | ok idmm =>
        obtain ⟨mid, mm0⟩ := idmm
        simp only [hrm] at h
        rcases ih _ _ h id mm hm with ⟨record, hrec, w⟩ | hbase
        · exact Or.inl ⟨record, List.mem_cons_of_mem _ hrec, w⟩
        · by_cases hinc : includedStateStatuses.contains mm0.status = true
          · rw [if_pos hinc] at hbase
            rw [jsObjGet_jsObjSet] at hbase
            by_cases hid : id = mid
            · subst hid
              rw [if_pos rfl] at hbase
              cases hbase
              exact Or.inl ⟨r, List.mem_cons_self _ _, pr, hpr, hrm, hinc⟩
            · rw [if_neg hid] at hbase
              exact Or.inr hbase
          · rw [if_neg hinc] at hbase
            exact Or.inr hbase

theorem lsBuildState_presence (d : GuidDict) (recs : List String) :
    ∀ ns ns' : MatchView, lsBuildState d ns recs = .ok ns' →
      ∀ id mm, jsObjGet ns id = some mm →
        ∃ mm', jsObjGet ns' id = some mm' := by
  induction recs with
  | nil =>
    intro ns ns' h id mm hm
    simp only [lsBuildState] at h
    cases h
    exact ⟨mm, hm⟩
  | cons r rest ih =>
    intro ns ns' h id mm hm
    simp only [lsBuildState] at h
    cases hpr : parseRecord r with
    | error e => simp only [hpr] at h; exact absurd h (by simp)
    | ok pr =>
      simp only [hpr] at h
      cases hrm : renderMatchObject d (some pr) with
      | error e => simp only [hrm] at h; exact absurd h (by simp)
      | ok idmm =>
        obtain ⟨mid, mm0⟩ := idmm
        simp only [hrm] at h
        by_cases hinc : includedStateStatuses.contains mm0.status = true
        · rw [if_pos hinc] at h
          by_cases hid : id = mid
          · subst hid
            exact ih _ _ h id mm0 (by rw [jsObjGet_jsObjSet, if_pos rfl])
          · exact ih _ _ h id mm (by rw [jsObjGet_jsObjSet, if_neg hid]; exact hm)
        · rw [if_neg hinc] at h
          exact ih _ _ h id mm hm

theorem lsBuildState_complete (d : GuidDict) (recs : List String) :
    ∀ ns ns' : MatchView, lsBuildState d ns recs = .ok ns' →
      ∀ id mm record pr, record ∈ recs → parseRecord record = .ok pr →
        renderMatchObject d (some pr) = .ok (id, mm) →
        includedStateStatuses.contains mm.status = true →
        ∃ mm', jsObjGet ns' id = some mm' := by
  induction recs with
  | nil =>
    intro ns ns' h id mm record pr hrec
    cases hrec
  | cons r rest ih =>
    intro ns ns' h id mm record pr hrec hpr hrm hinc
    simp only [lsBuildState] at h
    rcases List.mem_cons.mp hrec with hr | hr
    · subst hr
      simp only [hpr, hrm, if_pos hinc] at h
      exact lsBuildState_presence d rest _ _ h id mm
        (by rw [jsObjGet_jsObjSet, if_pos rfl])
    · cases hpr2 : parseRecord r with
      | error e => simp only [hpr2] at h; exact absurd h (by simp)
      | ok pr2 =>
        simp only [hpr2] at h
        cases hrm2 : renderMatchObject d (some pr2) with
        | error e => simp only [hrm2] at h; exact absurd h (by simp)
        | ok idmm =>
          obtain ⟨mid2, mm2⟩ := idmm
          simp only [hrm2] at h
          exact ih _ _ h id mm record pr hr hpr hrm hinc

/-- C9: on each notification the projector builds a fresh mapping holding
exactly the snapshot's matches whose denormalized status is PRE or LIVE and
atomically replaces the public view with it; if parsing or rendering any line
throws, the previous view is preserved and the error propagates to the
caller; `getCurrentState` returns a copy equal to the view (aliasing is
outside the embedding). -/
theorem C9_projector_swap (d : GuidDict) (view : MatchView) (odds : String) :
    (∀ e, (lsOnEndpointChange d view odds).2 = some e →
       (lsOnEndpointChange d view odds).1 = view) ∧
    ((lsOnEndpointChange d view odds).2 = none →
      ∀ id mm, jsObjGet (lsOnEndpointChange d view odds).1 id = some mm →
        ∃ record ∈ (splitOnChar '\n' odds).filter (· ≠ ""), ∃ pr,
          parseRecord record = .ok pr ∧
          renderMatchObject d (some pr) = .ok (id, mm) ∧
          includedStateStatuses.contains mm.status = true) ∧
    ((lsOnEndpointChange d view odds).2 = none →
      ∀ id mm record pr, record ∈ (splitOnChar '\n' odds).filter (· ≠ "") →
        parseRecord record = .ok pr →
        renderMatchObject d (some pr) = .ok (id, mm) →
        includedStateStatuses.contains mm.status = true →
        ∃ mm', jsObjGet (lsOnEndpointChange d view odds).1 id = some mm') ∧
    lsGetCurrentState (lsOnEndpointChange d view odds).1 =
      (lsOnEndpointChange d view odds).1 := by
  cases hb : lsBuildState d [] ((splitOnChar '\n' odds).filter (· ≠ "")) with
  | ok ns =>
    have hch : lsOnEndpointChange d view odds = (ns, none) := by
      simp only [lsOnEndpointChange, hb]
    refine ⟨?_, ?_, ?_, rfl⟩
    · intro e he
      rw [hch] at he
      cases he
    · intro _ id mm hm
      rw [hch] at hm
      rcases lsBuildState_lookup_origin d _ _ _ hb id mm hm with h | h
      · exact h
      · simp [jsObjGet] at h
    · intro _ id mm record pr hrec hpr hrm hinc
      rw [hch]
      exact lsBuildState_complete d _ _ _ hb id mm record pr hrec hpr hrm hinc
  | error e2 =>
    have hch : lsOnEndpointChange d view odds = (view, some e2) := by
      simp only [lsOnEndpointChange, hb]
    refine ⟨?_, ?_, ?_, rfl⟩
    · intro e he
      rw [hch]
    · intro hnone
      rw [hch] at hnone
      simp at hnone
    · intro hnone
      rw [hch] at hnone
      simp at hnone

theorem C9_witness :
    (lsOnEndpointChange testDict [] "bogus").1 = [] :=
  (C9_projector_swap testDict [] "bogus").1
    (.validation "Invalid record format: expected 7 or 8 fields, got 1")
    (by decide)

theorem sha256Hex_ne_empty (bytes : List ℕ) : sha256Hex bytes ≠ "" := by
  simp only [sha256Hex]
  intro h
  have hd := congrArg String.data h
  simp [wordHex] at hd

theorem notifyFrom_all_ok (url data : String) (ls : List ChangeListener)
    (hok : ∀ l ∈ ls, l url data = .ok ()) :
    ∀ i, notifyFrom url data ls i =
      ((List.range ls.length).map (fun j => (i + j, url, data)), none) := by
  induction ls with
  | nil => intro i; simp [notifyFrom]
  | cons l rest ih =>
    intro i
    simp only [notifyFrom]
    rw [hok l (List.mem_cons_self _ _)]
    rw [ih (fun l2 hl => hok l2 (List.mem_cons_of_mem _ hl)) (i + 1)]
    simp only [List.length_cons, List.range_succ_eq_map, List.map_cons,
      List.map_map]
    refine congrArg (fun x => (_ :: x, none)) ?_
    refine List.map_congr_left ?_
    intro j _
    simp only [Function.comp]
    refine congrArg (fun n => (n, url, data)) ?_
    omega

/-- C4: on every successful fetch the poller notifies the registered
listeners — serially, in registration (array) order, with the UTF-8-decoded
body — exactly when the SHA-256 hex checksum of the raw bytes differs from
`lastChecksum`; the very first successful fetch (empty `lastChecksum`) always
notifies, and a response byte-identical to the previous successful one
notifies no listener. -/
theorem C4_notify_iff_changed (st : PollerSt) (ls : List ChangeListener)
    (bytes : List ℕ) (now now2 : ℕ)
    (hok : ∀ l ∈ ls, l st.url (utf8Decode bytes) = .ok ()) :
    ((performRequest st ls bytes now).2.1 =
      if sha256Hex bytes = st.lastChecksum then []
      else (List.range ls.length).map (fun i => (i, st.url, utf8Decode bytes))) ∧
    (performRequest st ls bytes now).2.2 = none ∧
    (st.lastChecksum = "" →
      (performRequest st ls bytes now).2.1 =
        (List.range ls.length).map (fun i => (i, st.url, utf8Decode bytes))) ∧
    (performRequest (performRequest st ls bytes now).1 ls bytes now2).2.1 = [] := by
  have hn := notifyFrom_all_ok st.url (utf8Decode bytes) ls hok 0
  simp only [zero_add] at hn
  by_cases hc : st.lastChecksum = sha256Hex bytes
  · have hne : ¬ st.lastChecksum ≠ sha256Hex bytes := not_not_intro hc
    have hreq : performRequest st ls bytes now =
        ({ st with lastSuccessfulRequest := now }, [], none) := by
      simp only [performRequest, if_neg hne]
    refine ⟨?_, ?_, ?_, ?_⟩
    · rw [hreq, if_pos hc.symm]
    · rw [hreq]
    · intro hempty
      exact absurd (hempty ▸ hc).symm (sha256Hex_ne_empty bytes)
    · rw [hreq]
      have : ¬ ({ st with lastSuccessfulRequest := now } :
          PollerSt).lastChecksum ≠ sha256Hex bytes := not_not_intro hc
      simp only [performRequest, if_neg this]
  · have hc' : st.lastChecksum ≠ sha256Hex bytes := hc
    have hreq : performRequest st ls bytes now =
        ({ st with
            lastChecksum := sha256Hex bytes,
            lastSuccessfulRequest := now },
          (List.range ls.length).map (fun i => (i, st.url, utf8Decode bytes)),
          none) := by
      simp only [performRequest, if_pos hc', hn]
    refine ⟨?_, ?_, ?_, ?_⟩
    · rw [hreq, if_neg (fun h => hc h.symm)]
    · rw [hreq]
    · intro _
      rw [hreq]
    · rw [hreq]
      have heq : ¬ ({ st with
          lastChecksum := sha256Hex bytes,
          lastSuccessfulRequest := now } : PollerSt).lastChecksum ≠
          sha256Hex bytes := not_not_intro rfl
      simp only [performRequest, if_neg heq]

theorem C4_witness :
    (performRequest (mkPoller 100 "u") [fun _ _ => Except.ok ()] [97] 5).2.2 =
      none :=
  (C4_notify_iff_changed (mkPoller 100 "u") [fun _ _ => Except.ok ()] [97] 5 6
    (by decide)).2.1

theorem iterateFail_spec (st : PollerSt) (hpoll : st.isPolling = true)
    (hstart : st.currentBackoffDelay = 1000) (k : ℕ) :
    (iterateFailCycles st k).1.currentBackoffDelay = min (1000 * 2 ^ k) 10000 ∧
    (iterateFailCycles st k).1.isPolling = true ∧
    (1 ≤ k → (iterateFailCycles st k).1.currentState = .BACKING_OFF ∧
      (iterateFailCycles st k).2 =
        (iterateFailCycles st k).1.currentBackoffDelay) := by
  induction k with
  | zero => simp [iterateFailCycles, hstart, hpoll]
  | succ k ih =>
    obtain ⟨hb, hp, _⟩ := ih
    rcases hit : iterateFailCycles st k with ⟨st1, sl⟩
    rw [hit] at hb hp
    simp only at hb hp
    have harith : min (min (1000 * 2 ^ k) 10000 * 2) 10000 =
        min (1000 * 2 ^ (k + 1)) 10000 := by
      have h2 : 1000 * 2 ^ (k + 1) = 1000 * 2 ^ k * 2 := by ring
      rw [h2]
      omega
    simp only [iterateFailCycles, hit, pollCycle, handleError, hb, hp,
      if_pos hp]
    refine ⟨harith, trivial, fun _ => ⟨trivial, ?_⟩⟩
    simp [hp]

/-- C5: after k ≥ 1 consecutive failed poll cycles (from a fresh or
just-successful poller, whose backoff is 1000 ms), `currentBackoffDelay`
equals `min(1000·2^k, 10000)`, the state is BACKING_OFF and the sleep before
the next attempt is exactly the current backoff; and any successful
`performRequest` resets the backoff to 1000 ms and the state to POLLING. -/
theorem C5_backoff (st : PollerSt) (k : ℕ)
    (hstart : st.currentBackoffDelay = 1000) (hpoll : st.isPolling = true)
    (hk : 1 ≤ k) :
    (iterateFailCycles st k).1.currentBackoffDelay =
      min (1000 * 2 ^ k) 10000 ∧
    (iterateFailCycles st k).1.currentState = .BACKING_OFF ∧
    (iterateFailCycles st k).2 = min (1000 * 2 ^ k) 10000 ∧
    (∀ st2 ls bytes now, (performRequest st2 ls bytes now).2.2 = none →
      (pollCycle st2 ls (.ok bytes) now).1.currentBackoffDelay = 1000 ∧
      (pollCycle st2 ls (.ok bytes) now).1.currentState = .POLLING) := by
  obtain ⟨hb, hp, hrest⟩ := iterateFail_spec st hpoll hstart k
  obtain ⟨hs, hsl⟩ := hrest hk
  refine ⟨hb, hs, by rw [hsl, hb], ?_⟩
  intro st2 ls bytes now hnone
  rcases hreq : performRequest st2 ls bytes now with ⟨st1, tr, err⟩
  rw [hreq] at hnone
  simp only at hnone
  subst hnone
  simp only [pollCycle, hreq]
  exact ⟨trivial, trivial⟩

theorem C5_witness :
    (iterateFailCycles { mkPoller 100 "u" with isPolling := true } 7).1.currentBackoffDelay =
      min (1000 * 2 ^ 7) 10000 :=
  (C5_backoff { mkPoller 100 "u" with isPolling := true } 7 rfl rfl
    (by omega)).1

/-- C6 (amended): after `stopPolling` the state is INITIALIZING and a new
`startPolling` resumes POLLING with `isPolling` set, but the poller is not
re-initialised: `lastChecksum` and `currentBackoffDelay` keep their pre-stop
values, so a snapshot whose bytes are identical to the last body observed
before the stop does not re-notify the listeners. -/
theorem C6_restart_keeps_checksum (st : PollerSt) :
    (stopPolling st).currentState = .INITIALIZING ∧
    (startPolling (stopPolling st)).currentState = .POLLING ∧
    (startPolling (stopPolling st)).isPolling = true ∧
    (startPolling (stopPolling st)).lastChecksum = st.lastChecksum ∧
    (startPolling (stopPolling st)).currentBackoffDelay =
      st.currentBackoffDelay ∧
    (∀ ls bytes now, st.lastChecksum = sha256Hex bytes →
      (performRequest (startPolling (stopPolling st)) ls bytes now).2.1 = []) := by
  refine ⟨rfl, rfl, rfl, rfl, rfl, ?_⟩
  intro ls bytes now h
  have hcond : ¬ (startPolling (stopPolling st)).lastChecksum ≠
      sha256Hex bytes :=
    not_not_intro (show (startPolling (stopPolling st)).lastChecksum =
      sha256Hex bytes from h)
  simp only [performRequest, if_neg hcond]

theorem C6_witness :
    (performRequest (startPolling (stopPolling { mkPoller 100 "u" with
      lastChecksum := sha256Hex [97, 98] })) [fun _ _ => Except.ok ()]
      [97, 98] 3).2.1 = [] :=
  (C6_restart_keeps_checksum { mkPoller 100 "u" with
    lastChecksum := sha256Hex [97, 98] }).2.2.2.2.2
    [fun _ _ => Except.ok ()] [97, 98] 3 rfl

set_option maxRecDepth 40000 in
/-- The claim as stated is false on the code: after a first notification of
body `[97, 98]`, `stopPolling` then `startPolling` keeps the old checksum
(it is not fresh), and re-delivering the byte-identical body notifies no
listener. -/
theorem C6_counterexample :
    (pollCycle (startPolling (mkPoller 100 "u")) [fun _ _ => Except.ok ()]
        (.ok [97, 98]) 0).2.1 ≠ [] ∧
    (startPolling (stopPolling (pollCycle (startPolling (mkPoller 100 "u"))
        [fun _ _ => Except.ok ()] (.ok [97, 98]) 0).1)).lastChecksum ≠ "" ∧
    (pollCycle (startPolling (stopPolling (pollCycle (startPolling
        (mkPoller 100 "u")) [fun _ _ => Except.ok ()] (.ok [97, 98]) 0).1))
        [fun _ _ => Except.ok ()] (.ok [97, 98]) 1).2.1 = [] := by
  refine ⟨by decide, by decide, by decide⟩

/-- C7: when the body changed and a listener throws during the notification
round, the cycle is treated as failed — the `currentState` assignments of the
iteration are ERROR then BACKING_OFF, and the backoff doubles — but
`lastChecksum` was already updated to the new body's checksum before the
listeners ran, so the same body triggers no further notification round on the
next successful fetch. -/
theorem C7_listener_failure (st : PollerSt) (ls : List ChangeListener)
    (bytes : List ℕ) (now now2 : ℕ) (e : JsError)
    (hch : st.lastChecksum ≠ sha256Hex bytes)
    (hbad : (notifyFrom st.url (utf8Decode bytes) ls 0).2 = some e) :
    (pollCycle st ls (.ok bytes) now).2.2.2 = [.ERROR, .BACKING_OFF] ∧
    (pollCycle st ls (.ok bytes) now).1.currentState = .BACKING_OFF ∧
    (pollCycle st ls (.ok bytes) now).1.currentBackoffDelay =
      min (st.currentBackoffDelay * 2) 10000 ∧
    (pollCycle st ls (.ok bytes) now).1.lastChecksum = sha256Hex bytes ∧
    (performRequest (pollCycle st ls (.ok bytes) now).1 ls bytes now2).2.1 =
      [] ∧
    (performRequest (pollCycle st ls (.ok bytes) now).1 ls bytes now2).2.2 =
      none := by
  rcases hnf : notifyFrom st.url (utf8Decode bytes) ls 0 with ⟨tr, err⟩
  rw [hnf] at hbad
  simp only at hbad
  subst hbad
  have hreq : performRequest st ls bytes now =
      ({ st with lastChecksum := sha256Hex bytes }, tr, some e) := by
    simp only [performRequest, if_pos hch, hnf]
  have hcyc : pollCycle st ls (.ok bytes) now =
      ({ st with
          lastChecksum := sha256Hex bytes,
          currentState := .BACKING_OFF,
          currentBackoffDelay := min (st.currentBackoffDelay * 2) 10000 },
        tr,
        (if st.isPolling then min (st.currentBackoffDelay * 2) 10000 else 0),
        [.ERROR, .BACKING_OFF]) := by
    simp only [pollCycle, hreq, handleError]
  rw [hcyc]
  refine ⟨rfl, rfl, rfl, rfl, ?_, ?_⟩ <;>
    simp only [performRequest,
      if_neg (not_not_intro (rfl :
        ({ st with
            lastChecksum := sha256Hex bytes,
            currentState := PollerMode.BACKING_OFF,
            currentBackoffDelay :=
              min (st.currentBackoffDelay * 2) 10000 } :
          PollerSt).lastChecksum = sha256Hex bytes))]

theorem C7_witness :
    (pollCycle { mkPoller 100 "u" with isPolling := true }
        [fun _ _ => Except.error (.validation "boom")] (.ok [97]) 0).2.2.2 =
      [.ERROR, .BACKING_OFF] :=
  (C7_listener_failure { mkPoller 100 "u" with isPolling := true }
    [fun _ _ => Except.error (.validation "boom")] [97] 0 1
    (.validation "boom") (by decide) (by decide)).1

theorem firstRepeatedKey_eq_none (l : List String) :
    ∀ seen, firstRepeatedKey seen l = none → l.Nodup ∧ ∀ g ∈ l, g ∉ seen := by
  induction l with
  | nil => intro seen _; exact ⟨List.nodup_nil, by simp⟩
  | cons g rest ih =>
    intro seen h
    simp only [firstRepeatedKey] at h
    by_cases hc : seen.contains g
    · rw [if_pos hc] at h; cases h
    · rw [if_neg hc] at h
      obtain ⟨hnd, hseen⟩ := ih (g :: seen) h
      refine ⟨List.nodup_cons.mpr ⟨?_, hnd⟩, ?_⟩
      · intro hmem
        exact hseen g hmem (List.mem_cons_self _ _)
      · intro g2 hg2
        rcases List.mem_cons.mp hg2 with h1 | h1
        · subst h1
          intro hmem
          exact hc (by simpa using hmem)
        · intro hmem
          exact hseen g2 h1 (List.mem_cons_of_mem _ hmem)

theorem foldl_jsObjSet_preserve (entries : List (String × String)) :
    ∀ (m : Mappings) (k v : String), jsObjGet m k = some v →
      (∀ p ∈ entries, jsObjGet m p.1 = none) →
      (entries.map Prod.fst).Nodup →
      jsObjGet (entries.foldl (fun acc p => jsObjSet acc p.1 p.2) m) k =
        some v := by
  induction entries with
  | nil => intro m k v hk _ _; exact hk
  | cons p rest ih =>
    intro m k v hk habs hnd
    obtain ⟨g, w⟩ := p
    simp only [List.foldl_cons]
    simp only [List.map_cons, List.nodup_cons] at hnd
    have hgk : ¬ k = g := by
      intro hc
      subst hc
      rw [habs (k, w) (List.mem_cons_self _ _)] at hk
      cases hk
    refine ih (jsObjSet m g w) k v ?_ ?_ hnd.2
    · rw [jsObjGet_jsObjSet, if_neg hgk]
      exact hk
    · intro q hq
      rw [jsObjGet_jsObjSet]
      have hqg : ¬ q.1 = g := by
        intro hc
        exact hnd.1 (hc ▸ List.mem_map_of_mem Prod.fst hq)
      rw [if_neg hqg]
      exact habs q (List.mem_cons_of_mem _ hq)

theorem fetchAndUpdate_ok_shape (m : Mappings) (resp : Option String)
    (m1 : Mappings) (h : fetchAndUpdateMappings m resp = .ok m1) :
    ∃ s entries, resp = some s ∧ parseEntries s = .ok entries ∧
      firstRepeatedKey [] (entries.map Prod.fst) = none ∧
      ((entries.map Prod.fst).find? fun g => (jsObjGet m g).isSome) = none ∧
      m1 = entries.foldl (fun acc p => jsObjSet acc p.1 p.2) m := by
  cases resp with
  | none => simp [fetchAndUpdateMappings] at h
  | some s =>
    simp only [fetchAndUpdateMappings] at h
    by_cases hs : s = ""
    · rw [if_pos hs] at h; cases h
    · rw [if_neg hs] at h
      cases hpe : parseEntries s with
      | error e => simp only [hpe] at h; exact absurd h (by simp)
      | ok entries =>
        simp only [hpe] at h
        cases hfr : firstRepeatedKey [] (entries.map Prod.fst) with
        | some g => simp only [hfr] at h; exact absurd h (by simp)
        | none =>
          simp only [hfr] at h
          cases hfd : ((entries.map Prod.fst).find? fun g =>
              (jsObjGet m g).isSome) with
          | some g => simp only [hfd] at h; exact absurd h (by simp)
          | none =>
            simp only [hfd] at h
            cases h
            exact ⟨s, entries, rfl, hpe, hfr, hfd, rfl⟩

theorem gmGet_monotone (m : Mappings) (resp : Option String) (guid k v : String)
    (hk : jsObjGet m k = some v) : jsObjGet (gmGet m resp guid).1 k = some v := by
  simp only [gmGet]
  by_cases hu : ¬ isUuid guid = true
  · rw [if_pos hu]
    exact hk
  · rw [if_neg hu]
    cases htl : truthyLookup m guid with
    | some w => exact hk
    | none =>
      cases hf : fetchAndUpdateMappings m resp with
      | error e => exact hk
      | ok m1 =>
        obtain ⟨s, entries, _, hpe, hfr, hfd, hm1⟩ :=
          fetchAndUpdate_ok_shape m resp m1 hf
        have hnd := (firstRepeatedKey_eq_none (entries.map Prod.fst) [] hfr).1
        have habs : ∀ p ∈ entries, jsObjGet m p.1 = none := by
          intro p hp
          have := List.find?_eq_none.mp hfd p.1 (List.mem_map_of_mem _ hp)
          simpa using this
        have hpres : jsObjGet m1 k = some v := by
          rw [hm1]
          exact foldl_jsObjSet_preserve entries m k v hk habs hnd
        cases htl1 : truthyLookup m1 guid with
        | some w => simp only [htl1]; exact hpres
        | none => simp only [htl1]; exact hpres

theorem isDup_within (g : String) :
    isDuplicateBindingError
      (.validation ("Duplicate GUID found in new entries: " ++ g)) = true := by
  simp only [isDuplicateBindingError]
  rw [String.data_append,
    List.take_append_of_le_length (by decide :
      (20 : ℕ) ≤ "Duplicate GUID found in new entries: ".data.length)]
  decide

theorem isDup_existing (g : String) :
    isDuplicateBindingError
      (.validation ("Duplicate GUID found: " ++ g)) = true := by
  simp only [isDuplicateBindingError]
  rw [String.data_append,
    List.take_append_of_le_length (by decide :
      (20 : ℕ) ≤ "Duplicate GUID found: ".data.length)]
  decide

/-- C8: the resolver's identifier→name map only grows — every binding present
before a `get` is still present, unchanged, afterwards — and a fetched payload
containing a pair whose id is already bound, or whose id repeats within the
same fetch, makes the triggering `get` fail with a duplicate-binding
`ValidationError` and leaves the map untouched, regardless of whether the
paired name equals the existing binding. -/
theorem C8_resolver_growth (m : Mappings) (resp : Option String)
    (guid : String) :
    (∀ k v, jsObjGet m k = some v → jsObjGet (gmGet m resp guid).1 k = some v) ∧
    (∀ payload entries, isUuid guid = true → truthyLookup m guid = none →
      resp = some payload → parseEntries payload = .ok entries →
      ((∃ g ∈ entries.map Prod.fst, (jsObjGet m g).isSome = true) ∨
        ¬ (entries.map Prod.fst).Nodup) →
      (gmGet m resp guid).1 = m ∧
        ∃ err, (gmGet m resp guid).2 = .error err ∧
          isDuplicateBindingError err = true) := by
  refine ⟨fun k v hk => gmGet_monotone m resp guid k v hk, ?_⟩
  intro payload entries hu htl hresp hpe hdup
  subst hresp
  have hpayload : payload ≠ "" := by
    intro hc
    subst hc
    rw [show parseEntries "" = .error (.validation "No valid entries found")
      from by decide] at hpe
    cases hpe
  have hferr : ∃ err, fetchAndUpdateMappings m (some payload) = .error err ∧
      isDuplicateBindingError err = true := by
    simp only [fetchAndUpdateMappings, if_neg hpayload, hpe]
    cases hfr : firstRepeatedKey [] (entries.map Prod.fst) with
    | some g => exact ⟨_, rfl, isDup_within g⟩
    | none =>
      have hnd := (firstRepeatedKey_eq_none (entries.map Prod.fst) [] hfr).1
      rcases hdup with ⟨g, hg, hgs⟩ | hdup2
      · cases hfd : ((entries.map Prod.fst).find? fun g =>
            (jsObjGet m g).isSome) with
        | some g2 => exact ⟨_, rfl, isDup_existing g2⟩
        | none =>
          have := List.find?_eq_none.mp hfd g hg
          rw [hgs] at this
          simp at this
      · exact absurd hnd hdup2
  obtain ⟨err, herr, hdupe⟩ := hferr
  have hget : gmGet m (some payload) guid = (m, .error err) := by
    simp only [gmGet, if_neg (not_not_intro hu), htl, herr]
  rw [hget]
  exact ⟨rfl, err, rfl, hdupe⟩

theorem C8_witness :
    (gmGet [(uSport, "FOOTBALL")]
        (some (uSport ++ ":FOOTBALL")) uComp).1 = [(uSport, "FOOTBALL")] ∧
    ∃ err, (gmGet [(uSport, "FOOTBALL")]
        (some (uSport ++ ":FOOTBALL")) uComp).2 = .error err ∧
      isDuplicateBindingError err = true :=
  (C8_resolver_growth [(uSport, "FOOTBALL")] (some (uSport ++ ":FOOTBALL"))
    uComp).2 (uSport ++ ":FOOTBALL") [(uSport, "FOOTBALL")] (by decide)
    (by decide) rfl (by decide) (Or.inl ⟨uSport, by decide, by decide⟩)

theorem getMatchHistory_insert (st : Storage) (k k' : String)
    (e : MatchHistoryEntry) :
    getMatchHistory (insertMatchRecord st k e) k' =
      if k' = k then getMatchHistory st k ++ [e] else getMatchHistory st k' := by
  simp only [insertMatchRecord, getMatchHistory, jsObjGet_jsObjSet]
  by_cases h : k' = k <;> simp [h]

theorem WFStorage_insert (st : Storage) (k : String) (e : MatchHistoryEntry)
    (h : WFStorage st) : WFStorage (insertMatchRecord st k e) := by
  obtain ⟨hnd, hne⟩ := h
  refine ⟨jsObjSet_nodup _ _ _ hnd, ?_⟩
  intro p hp
  rcases mem_jsObjSet _ _ _ p hp with h1 | h1
  · rw [h1]
    simp
  · exact hne p h1

theorem mem_byStatus_iff (st : Storage) (status id : String)
    (hnd : (st.map Prod.fst).Nodup) :
    id ∈ getAllMatchIdsByStatus st status ↔
      currentStatus st id = some status := by
  simp only [getAllMatchIdsByStatus, List.mem_map, List.mem_filter]
  constructor
  · rintro ⟨⟨k, hist⟩, ⟨hmem, hpred⟩, hfst⟩
    simp only at hfst hpred
    have hget : jsObjGet st id = some hist := by
      rw [← hfst]
      exact jsObjGet_eq_some_of_mem _ _ _ hnd hmem
    simp only [currentStatus, getCurrentMatchEntry, getMatchHistory, hget,
      Option.getD_some]
    cases hl : hist.getLast? with
    | none => rw [hl] at hpred; cases hpred
    | some en =>
      rw [hl] at hpred
      have hstat : en.matchStatus = status := of_decide_eq_true hpred
      simp [hstat]
  · intro hcur
    simp only [currentStatus, getCurrentMatchEntry, getMatchHistory] at hcur
    cases hget : jsObjGet st id with
    | none => rw [hget] at hcur; exact Option.noConfusion hcur
    | some hist =>
      rw [hget] at hcur
      simp only [Option.getD_some] at hcur
      cases hl : hist.getLast? with
      | none => rw [hl] at hcur; exact Option.noConfusion hcur
      | some en =>
        rw [hl] at hcur
        have hstat : en.matchStatus = status := by simpa using hcur
        refine ⟨(id, hist),
          ⟨mem_of_jsObjGet_eq_some _ _ _ hget, ?_⟩, rfl⟩
        simp only
        rw [hl]
        exact decide_eq_true hstat

theorem byStatus_nodup (st : Storage) (status : String)
    (hnd : (st.map Prod.fst).Nodup) :
    (getAllMatchIdsByStatus st status).Nodup := by
  simp only [getAllMatchIdsByStatus]
  exact hnd.sublist ((List.filter_sublist st).map Prod.fst)

theorem processMatchUpdate_parse (d : GuidDict) (now : ℕ) (st : Storage)
    (matchId record : String) (st' : Storage)
    (h : processMatchUpdate d now st matchId record = .ok st') :
    ∃ pr, parseRecord record = .ok pr := by
  simp only [processMatchUpdate] at h
  cases hpr : parseRecord record with
  | error e => simp only [hpr] at h; exact absurd h (by simp)
  | ok pr => exact ⟨pr, rfl⟩

theorem processMatchUpdate_frame (d : GuidDict) (now : ℕ) (st : Storage)
    (matchId record : String) (st' : Storage)
    (h : processMatchUpdate d now st matchId record = .ok st') (k : String)
    (hk : k ≠ matchId) : getMatchHistory st' k = getMatchHistory st k := by
  simp only [processMatchUpdate] at h
  cases hpr : parseRecord record with
  | error e => simp only [hpr] at h; exact absurd h (by simp)
  | ok pr =>
    simp only [hpr] at h
    split at h
    · cases hrm : renderMatchObject d (some pr) with
      | error e => simp only [hrm] at h; exact absurd h (by simp)
      | ok rendered =>
        simp only [hrm] at h
        cases h
        rw [getMatchHistory_insert, if_neg hk]
    · cases h
      rfl

theorem processMatchUpdate_current (d : GuidDict) (now : ℕ) (st : Storage)
    (matchId record : String) (st' : Storage)
    (h : processMatchUpdate d now st matchId record = .ok st') :
    ∃ en, getCurrentMatchEntry st' matchId = some en ∧
      en.rawData = record := by
  simp only [processMatchUpdate] at h
  cases hpr : parseRecord record with
  | error e => simp only [hpr] at h; exact absurd h (by simp)
  | ok pr =>
    simp only [hpr] at h
    split at h
    · cases hrm : renderMatchObject d (some pr) with
      | error e => simp only [hrm] at h; exact absurd h (by simp)
      | ok rendered =>
        simp only [hrm] at h
        cases h
        refine ⟨{ timestamp := now, rawData := record,
                  renderedData := some rendered,
                  matchStatus := rendered.2.status }, ?_, rfl⟩
        simp only [getCurrentMatchEntry, getMatchHistory_insert, if_pos rfl]
        exact List.getLast?_concat _
    · rename_i hcond
      cases h
      rcases hcur : getCurrentMatchEntry st matchId with _ | en
      · exact absurd (Or.inl hcur) hcond
      · refine ⟨en, rfl, ?_⟩
        by_contra hne
        exact hcond (Or.inr (by rw [hcur]; simpa using hne))

theorem processMatchUpdate_WF (d : GuidDict) (now : ℕ) (st : Storage)
    (matchId record : String) (st' : Storage)
    (h : processMatchUpdate d now st matchId record = .ok st')
    (hwf : WFStorage st) : WFStorage st' := by
  simp only [processMatchUpdate] at h
  cases hpr : parseRecord record with
  | error e => simp only [hpr] at h; exact absurd h (by simp)
  | ok pr =>
    simp only [hpr] at h
    split at h
    · cases hrm : renderMatchObject d (some pr) with
      | error e => simp only [hrm] at h; exact absurd h (by simp)
      | ok rendered =>
        simp only [hrm] at h
        cases h
        exact WFStorage_insert _ _ _ hwf
    · cases h
      exact hwf

theorem processMatchUpdate_noop (d : GuidDict) (now : ℕ) (st : Storage)
    (matchId record : String) (pr : ParsedRecord)
    (hpr : parseRecord record = .ok pr) (en : MatchHistoryEntry)
    (hen : getCurrentMatchEntry st matchId = some en)
    (hraw : en.rawData = record) :
    processMatchUpdate d now st matchId record = .ok st := by
  simp only [processMatchUpdate, hpr]
  rw [if_neg]
  rintro (hc | hc)
  · rw [hen] at hc
    cases hc
  · rw [hen] at hc
    simp [hraw] at hc

theorem processLines_frame (d : GuidDict) (now : ℕ) (recs : List String) :
    ∀ st k, k ∉ recs.map firstField →
      getMatchHistory (processLines d now st recs).1 k = getMatchHistory st k := by
  induction recs with
  | nil => intro st k _; rfl
  | cons r rest ih =>
    intro st k hk
    simp only [List.map_cons, List.mem_cons, not_or] at hk
    obtain ⟨hk1, hk2⟩ := hk
    simp only [processLines]
    by_cases hu : isUuid ((splitOnChar ',' r).headD "") = true
    · rw [if_neg (not_not_intro hu)]
      cases hpm : processMatchUpdate d now st ((splitOnChar ',' r).headD "") r
        with
      | error e => rfl
      | ok st1 =>
        show getMatchHistory (processLines d now st1 rest).1 k =
          getMatchHistory st k
        rw [ih st1 k hk2]
        exact processMatchUpdate_frame d now st _ r st1 hpm k
          (by simpa [firstField] using hk1)
    · rw [if_pos hu]

theorem processLines_preserve_current (d : GuidDict) (now : ℕ)
    (recs : List String) :
    ∀ st k en, getCurrentMatchEntry st k = some en →
      (∀ rec2 ∈ recs, firstField rec2 = k → rec2 = en.rawData) →
      getCurrentMatchEntry (processLines d now st recs).1 k = some en := by
  induction recs with
  | nil => intro st k en hen _; exact hen
  | cons r rest ih =>
    intro st k en hen hcons
    simp only [processLines]
    by_cases hu : isUuid ((splitOnChar ',' r).headD "") = true
    · rw [if_neg (not_not_intro hu)]
      cases hpm : processMatchUpdate d now st ((splitOnChar ',' r).headD "") r
        with
      | error e => exact hen
      | ok st1 =>
        show getCurrentMatchEntry (processLines d now st1 rest).1 k = some en
        by_cases hfr : firstField r = k
        · have hr : r = en.rawData := hcons r (List.mem_cons_self _ _) hfr
          obtain ⟨pr, hpr⟩ := processMatchUpdate_parse _ _ _ _ _ _ hpm
          have hen2 : getCurrentMatchEntry st ((splitOnChar ',' r).headD "") =
              some en := by
            show getCurrentMatchEntry st (firstField r) = some en
            rw [hfr]
            exact hen
          have hnoop := processMatchUpdate_noop d now st
            ((splitOnChar ',' r).headD "") r pr hpr en hen2 hr.symm
          rw [hpm] at hnoop
          have hst : st1 = st := Except.ok.inj hnoop
          subst hst
          exact ih st1 k en hen
            (fun rec2 h2 hf => hcons rec2 (List.mem_cons_of_mem _ h2) hf)
        · have hkne : k ≠ ((splitOnChar ',' r).headD "") :=
            fun hc => hfr hc.symm
          have hcur1 : getCurrentMatchEntry st1 k = some en := by
            simp only [getCurrentMatchEntry]
            rw [processMatchUpdate_frame d now st _ r st1 hpm k hkne]
            exact hen
          exact ih st1 k en hcur1
            (fun rec2 h2 hf => hcons rec2 (List.mem_cons_of_mem _ h2) hf)
    · rw [if_pos hu]
      exact hen

theorem processLines_ok_lines (d : GuidDict) (now : ℕ) (recs : List String) :
    ∀ st st', processLines d now st recs = (st', none) →
      ∀ rec ∈ recs, isUuid (firstField rec) = true ∧
        ∃ pr, parseRecord rec = .ok pr := by
  induction recs with
  | nil => intro st st' _ rec hrec; cases hrec
  | cons r rest ih =>
    intro st st' h rec hrec
    simp only [processLines] at h
    by_cases hu : isUuid ((splitOnChar ',' r).headD "") = true
    · rw [if_neg (not_not_intro hu)] at h
      cases hpm : processMatchUpdate d now st ((splitOnChar ',' r).headD "") r
        with
      | error e =>
        simp only [hpm] at h
        exact absurd h (by simp)
      | ok st1 =>
        simp only [hpm] at h
        rcases List.mem_cons.mp hrec with h1 | h1
        · subst h1
          exact ⟨by simpa [firstField] using hu,
            processMatchUpdate_parse _ _ _ _ _ _ hpm⟩
        · exact ih st1 st' h rec h1
    · rw [if_pos hu] at h
      exact absurd h (by simp)

theorem processLines_WF (d : GuidDict) (now : ℕ) (recs : List String) :
    ∀ st, WFStorage st → WFStorage (processLines d now st recs).1 := by
  induction recs with
  | nil => intro st hwf; exact hwf
  | cons r rest ih =>
    intro st hwf
    simp only [processLines]
    by_cases hu : isUuid ((splitOnChar ',' r).headD "") = true
    · rw [if_neg (not_not_intro hu)]
      cases hpm : processMatchUpdate d now st ((splitOnChar ',' r).headD "") r
        with
      | error e => exact hwf
      | ok st1 =>
        show WFStorage (processLines d now st1 rest).1
        exact ih st1 (processMatchUpdate_WF d now st _ r st1 hpm hwf)
    · rw [if_pos hu]
      exact hwf

theorem processLines_noop (d : GuidDict) (now : ℕ) (recs : List String) :
    ∀ st, (∀ rec ∈ recs, isUuid (firstField rec) = true ∧
        (∃ pr, parseRecord rec = .ok pr) ∧
        ∃ en, getCurrentMatchEntry st (firstField rec) = some en ∧
          en.rawData = rec) →
      processLines d now st recs = (st, none) := by
  induction recs with
  | nil => intro st _; rfl
  | cons r rest ih =>
    intro st hyp
    obtain ⟨hu, ⟨pr, hpr⟩, en, hen, hraw⟩ := hyp r (List.mem_cons_self _ _)
    simp only [processLines]
    rw [if_neg (not_not_intro (by simpa [firstField] using hu))]
    rw [processMatchUpdate_noop d now st ((splitOnChar ',' r).headD "") r pr
      hpr en hen hraw]
    exact ih st (fun rec h2 => hyp rec (List.mem_cons_of_mem _ h2))

theorem processLines_current (d : GuidDict) (now : ℕ) (recs : List String) :
    ∀ st st', processLines d now st recs = (st', none) →
      ∀ rec ∈ recs,
        (∀ rec2 ∈ recs, firstField rec2 = firstField rec → rec2 = rec) →
        ∃ en, getCurrentMatchEntry st' (firstField rec) = some en ∧
          en.rawData = rec := by
  induction recs with
  | nil => intro st st' _ rec hrec; cases hrec
  | cons r rest ih =>
    intro st st' h rec hrec huniq
    simp only [processLines] at h
    by_cases hu : isUuid ((splitOnChar ',' r).headD "") = true
    · rw [if_neg (not_not_intro hu)] at h
      cases hpm : processMatchUpdate d now st ((splitOnChar ',' r).headD "") r
        with
      | error e =>
        simp only [hpm] at h
        exact absurd h (by simp)
      | ok st1 =>
        simp only [hpm] at h
        rcases List.mem_cons.mp hrec with h1 | h1
        · subst h1
          obtain ⟨en, hen1, hraw⟩ := processMatchUpdate_current _ _ _ _ _ _ hpm
          refine ⟨en, ?_, hraw⟩
          have hpres := processLines_preserve_current d now rest st1
            (firstField rec) en hen1
            (fun rec2 h2 hf => by
              rw [huniq rec2 (List.mem_cons_of_mem _ h2) hf, hraw])
          rw [h] at hpres
          exact hpres
        · exact ih st1 st' h rec h1
            (fun rec2 h2 hf => huniq rec2 (List.mem_cons_of_mem _ h2) hf)
    · rw [if_pos hu] at h
      exact absurd h (by simp)

theorem sweepOne_frame (d : GuidDict) (now : ℕ) (st : Storage)
    (rid : String) (st' : Storage) (h : sweepOne d now st rid = .ok st')
    (k : String) (hk : k ≠ rid) :
    getMatchHistory st' k = getMatchHistory st k := by
  simp only [sweepOne] at h
  cases hcur : getCurrentMatchEntry st rid with
  | none => simp only [hcur] at h; exact absurd h (by simp)
  | some lastEntry =>
    simp only [hcur] at h
    cases hpr : parseRecord lastEntry.rawData with
    | error e => simp only [hpr] at h; exact absurd h (by simp)
    | ok parsed =>
      simp only [hpr] at h
      cases hrm : renderMatchObject d (some parsed) with
      | error e => simp only [hrm] at h; exact absurd h (by simp)
      | ok idmm =>
        obtain ⟨rid2, mm⟩ := idmm
        simp only [hrm] at h
        cases h
        rw [getMatchHistory_insert, if_neg hk]

theorem sweepOne_current (d : GuidDict) (now : ℕ) (st : Storage)
    (rid : String) (st' : Storage) (h : sweepOne d now st rid = .ok st') :
    ∃ en, getCurrentMatchEntry st' rid = some en ∧
      en.matchStatus = "REMOVED" ∧ en.rawData = "(Generated)" := by
  simp only [sweepOne] at h
  cases hcur : getCurrentMatchEntry st rid with
  | none => simp only [hcur] at h; exact absurd h (by simp)
  | some lastEntry =>
    simp only [hcur] at h
    cases hpr : parseRecord lastEntry.rawData with
    | error e => simp only [hpr] at h; exact absurd h (by simp)
    | ok parsed =>
      simp only [hpr] at h
      cases hrm : renderMatchObject d (some parsed) with
      | error e => simp only [hrm] at h; exact absurd h (by simp)
      | ok idmm =>
        obtain ⟨rid2, mm⟩ := idmm
        simp only [hrm] at h
        cases h
        refine ⟨{ timestamp := now, rawData := "(Generated)",
                  renderedData := some (rid2,
                    if mm.status ≠ "" then { mm with status := "REMOVED" }
                    else mm),
                  matchStatus := "REMOVED" }, ?_, rfl, rfl⟩
        simp only [getCurrentMatchEntry, getMatchHistory_insert, if_pos rfl]
        exact List.getLast?_concat _

theorem sweepOne_WF (d : GuidDict) (now : ℕ) (st : Storage) (rid : String)
    (st' : Storage) (h : sweepOne d now st rid = .ok st')
    (hwf : WFStorage st) : WFStorage st' := by
  simp only [sweepOne] at h
  cases hcur : getCurrentMatchEntry st rid with
  | none => simp only [hcur] at h; exact absurd h (by simp)
  | some lastEntry =>
    simp only [hcur] at h
    cases hpr : parseRecord lastEntry.rawData with
    | error e => simp only [hpr] at h; exact absurd h (by simp)
    | ok parsed =>
      simp only [hpr] at h
      cases hrm : renderMatchObject d (some parsed) with
      | error e => simp only [hrm] at h; exact absurd h (by simp)
      | ok idmm =>
        obtain ⟨rid2, mm⟩ := idmm
        simp only [hrm] at h
        cases h
        exact WFStorage_insert _ _ _ hwf

theorem sweepList_frame (d : GuidDict) (now : ℕ) (ids : List String) :
    ∀ st k, k ∉ ids →
      getMatchHistory (sweepList d now st ids).1 k = getMatchHistory st k := by
  induction ids with
  | nil => intro st k _; rfl
  | cons rid rest ih =>
    intro st k hk
    simp only [List.mem_cons, not_or] at hk
    obtain ⟨hk1, hk2⟩ := hk
    simp only [sweepList]
    cases hs : sweepOne d now st rid with
    | error e => rfl
    | ok st1 =>
      show getMatchHistory (sweepList d now st1 rest).1 k = getMatchHistory st k
      rw [ih st1 k hk2]
      exact sweepOne_frame d now st rid st1 hs k hk1

theorem sweepList_WF (d : GuidDict) (now : ℕ) (ids : List String) :
    ∀ st, WFStorage st → WFStorage (sweepList d now st ids).1 := by
  induction ids with
  | nil => intro st hwf; exact hwf
  | cons rid rest ih =>
    intro st hwf
    simp only [sweepList]
    cases hs : sweepOne d now st rid with
    | error e => exact hwf
    | ok st1 =>
      show WFStorage (sweepList d now st1 rest).1
      exact ih st1 (sweepOne_WF d now st rid st1 hs hwf)

theorem sweepList_hit (d : GuidDict) (now : ℕ) (ids : List String) :
    ∀ st st', sweepList d now st ids = (st', none) → ids.Nodup →
      ∀ id ∈ ids, ∃ en, getCurrentMatchEntry st' id = some en ∧
        en.matchStatus = "REMOVED" ∧ en.rawData = "(Generated)" := by
  induction ids with
  | nil => intro st st' _ _ id hid; cases hid
  | cons rid rest ih =>
    intro st st' h hnd id hid
    simp only [sweepList] at h
    cases hs : sweepOne d now st rid with
    | error e =>
      simp only [hs] at h
      exact absurd h (by simp)
    | ok st1 =>
      simp only [hs] at h
      simp only [List.nodup_cons] at hnd
      rcases List.mem_cons.mp hid with h1 | h1
      · subst h1
        obtain ⟨en, hen, hst, hraw⟩ := sweepOne_current d now st id st1 hs
        refine ⟨en, ?_, hst, hraw⟩
        have hfr : getMatchHistory (sweepList d now st1 rest).1 id =
            getMatchHistory st1 id :=
          sweepList_frame d now rest st1 id hnd.1
        have : getCurrentMatchEntry (sweepList d now st1 rest).1 id =
            some en := by
          simp only [getCurrentMatchEntry, hfr]
          exact hen
        rw [h] at this
        exact this
      · exact ih st1 st' h hnd.2 id h1

/-- C1: after the history store successfully processes a snapshot, every match
id whose current status was LIVE beforehand and that appears as field 0 of no
line of the snapshot has a new current entry whose status is REMOVED and whose
raw line is the literal string `"(Generated)"`; and a match absent from the
snapshot whose current status was not LIVE (for example PRE) receives no
synthetic entry — its history is unchanged. -/
theorem C1_removed_synthesis (d : GuidDict) (now : ℕ) (st st' : Storage)
    (odds : String) (hwf : WFStorage st)
    (hrun : storageOnEndpointChange d now st odds = (st', none)) :
    (∀ id, currentStatus st id = some "LIVE" → id ∉ activeIdsOf odds →
      ∃ en, getCurrentMatchEntry st' id = some en ∧
        en.matchStatus = "REMOVED" ∧ en.rawData = "(Generated)") ∧
    (∀ id, id ∉ activeIdsOf odds → currentStatus st id ≠ some "LIVE" →
      getMatchHistory st' id = getMatchHistory st id) := by
  rcases hpl : processLines d now st (oddsRecords odds) with ⟨stm, err⟩
  cases err with
  | some e =>
    simp only [storageOnEndpointChange, hpl] at hrun
    exact absurd hrun (by simp)
  | none =>
    have hsw : sweepList d now stm ((getAllMatchIdsByStatus stm "LIVE").filter
        fun i => !((activeIdsOf odds).contains i)) = (st', none) := by
      simp only [storageOnEndpointChange, hpl,
        markMissingLiveMatchesAsRemoved] at hrun
      exact hrun
    have hwfm : WFStorage stm := by
      have := processLines_WF d now (oddsRecords odds) st hwf
      rw [hpl] at this
      exact this
    have hframe1 : ∀ id, id ∉ activeIdsOf odds →
        getMatchHistory stm id = getMatchHistory st id := by
      intro id hid
      have := processLines_frame d now (oddsRecords odds) st id
        (by simpa [activeIdsOf] using hid)
      rw [hpl] at this
      exact this
    constructor
    · intro id hlive hid
      have hcurm : currentStatus stm id = some "LIVE" := by
        simp only [currentStatus, getCurrentMatchEntry, hframe1 id hid]
        exact hlive
      have hmem : id ∈ getAllMatchIdsByStatus stm "LIVE" :=
        (mem_byStatus_iff stm "LIVE" id hwfm.1).mpr hcurm
      have hmemrem : id ∈ (getAllMatchIdsByStatus stm "LIVE").filter
          (fun i => !((activeIdsOf odds).contains i)) :=
        List.mem_filter.mpr ⟨hmem, by simpa using hid⟩
      have hndrem : ((getAllMatchIdsByStatus stm "LIVE").filter
          (fun i => !((activeIdsOf odds).contains i))).Nodup :=
        (byStatus_nodup stm "LIVE" hwfm.1).filter _
      exact sweepList_hit d now _ stm st' hsw hndrem id hmemrem
    · intro id hid hnl
      have hnotlive : id ∉ getAllMatchIdsByStatus stm "LIVE" := by
        intro hmem
        refine hnl ?_
        have := (mem_byStatus_iff stm "LIVE" id hwfm.1).mp hmem
        simp only [currentStatus, getCurrentMatchEntry, hframe1 id hid]
          at this
        exact this
      have hnotrem : id ∉ (getAllMatchIdsByStatus stm "LIVE").filter
          (fun i => !((activeIdsOf odds).contains i)) := by
        intro hmem
        exact hnotlive (List.mem_filter.mp hmem).1
      have hfr2 := sweepList_frame d now _ stm id hnotrem
      rw [hsw] at hfr2
      exact hfr2.trans (hframe1 id hid)

/-- Concrete pre-state for the C1 witness: one match whose current entry is
LIVE with a parseable raw line. -/
def wEntry : MatchHistoryEntry :=
  { timestamp := 0, rawData := mkRecord "1729839678453",
    renderedData := none, matchStatus := "LIVE" }

/-- Concrete one-match store for the C1 witness. -/
def wSt : Storage := [(uMatch, [wEntry])]

set_option maxRecDepth 80000 in
theorem C1_witness :
    ∃ en, getCurrentMatchEntry
        (storageOnEndpointChange testDict 5 wSt "").1 uMatch = some en ∧
      en.matchStatus = "REMOVED" ∧ en.rawData = "(Generated)" :=
  (C1_removed_synthesis testDict 5 wSt
    (storageOnEndpointChange testDict 5 wSt "").1 "" (by decide)
    (by decide)).1 uMatch (by decide) (by decide)

/-- C2 (amended): for a snapshot in which no match id appears on two distinct
lines, a second delivery right after a successful one changes nothing — the
store is byte-identical afterwards, so every match's history length is
unchanged: each line is deduplicated against the identical current raw line,
and the REMOVED sweep finds no LIVE match missing from the snapshot.  (For a
snapshot containing two different lines with the same match id the original
claim fails, see the counterexample: both lines re-append on every
delivery.) -/
theorem C2_idempotent_delivery (d : GuidDict) (now1 now2 : ℕ)
    (st st1 : Storage) (odds : String) (hwf : WFStorage st)
    (hcons : ∀ r1 ∈ oddsRecords odds, ∀ r2 ∈ oddsRecords odds,
      firstField r1 = firstField r2 → r1 = r2)
    (hrun : storageOnEndpointChange d now1 st odds = (st1, none)) :
    storageOnEndpointChange d now2 st1 odds = (st1, none) ∧
    (∀ id, (getMatchHistory
        (storageOnEndpointChange d now2 st1 odds).1 id).length =
      (getMatchHistory st1 id).length) := by
  rcases hpl : processLines d now1 st (oddsRecords odds) with ⟨stm, err⟩
  cases err with
  | some e =>
    simp only [storageOnEndpointChange, hpl] at hrun
    exact absurd hrun (by simp)
  | none =>
    have hsw : sweepList d now1 stm ((getAllMatchIdsByStatus stm "LIVE").filter
        fun i => !((activeIdsOf odds).contains i)) = (st1, none) := by
      simp only [storageOnEndpointChange, hpl,
        markMissingLiveMatchesAsRemoved] at hrun
      exact hrun
    have hwfm : WFStorage stm := by
      have := processLines_WF d now1 (oddsRecords odds) st hwf
      rw [hpl] at this
      exact this
    have hwf1 : WFStorage st1 := by
      have := sweepList_WF d now1 ((getAllMatchIdsByStatus stm "LIVE").filter
        fun i => !((activeIdsOf odds).contains i)) stm hwfm
      rw [hsw] at this
      exact this
    have hok := processLines_ok_lines d now1 (oddsRecords odds) st stm hpl
    have hcur1 : ∀ rec ∈ oddsRecords odds, ∃ en,
        getCurrentMatchEntry st1 (firstField rec) = some en ∧
          en.rawData = rec := by
      intro rec hrec
      obtain ⟨en, henm, hraw⟩ := processLines_current d now1 (oddsRecords odds)
        st stm hpl rec hrec (fun r2 h2 hf => hcons r2 h2 rec hrec hf)
      refine ⟨en, ?_, hraw⟩
      have hactive : firstField rec ∈ activeIdsOf odds :=
        List.mem_map_of_mem firstField hrec
      have hnotrem : firstField rec ∉
          (getAllMatchIdsByStatus stm "LIVE").filter
            (fun i => !((activeIdsOf odds).contains i)) := by
        intro hmem
        have hb := (List.mem_filter.mp hmem).2
        simp only [Bool.not_eq_true'] at hb
        simp at hb
        exact hb hactive
      have hfr := sweepList_frame d now1 _ stm (firstField rec) hnotrem
      rw [hsw] at hfr
      simp only [getCurrentMatchEntry, hfr]
      exact henm
    have hlive_sub : ∀ id, currentStatus st1 id = some "LIVE" →
        id ∈ activeIdsOf odds := by
      intro id hl
      by_contra hid
      have hfr1 : getMatchHistory stm id = getMatchHistory st id := by
        have := processLines_frame d now1 (oddsRecords odds) st id
          (by simpa [activeIdsOf] using hid)
        rw [hpl] at this
        exact this
      by_cases hsl : currentStatus stm id = some "LIVE"
      · have hmem : id ∈ getAllMatchIdsByStatus stm "LIVE" :=
          (mem_byStatus_iff _ _ _ hwfm.1).mpr hsl
        have hmemr : id ∈ (getAllMatchIdsByStatus stm "LIVE").filter
            (fun i => !((activeIdsOf odds).contains i)) :=
          List.mem_filter.mpr ⟨hmem, by simpa using hid⟩
        have hnd : ((getAllMatchIdsByStatus stm "LIVE").filter
            (fun i => !((activeIdsOf odds).contains i))).Nodup :=
          (byStatus_nodup stm "LIVE" hwfm.1).filter _
        obtain ⟨en, hen, hstat, _⟩ :=
          sweepList_hit d now1 _ stm st1 hsw hnd id hmemr
        rw [show currentStatus st1 id = some en.matchStatus from
          by simp [currentStatus, hen]] at hl
        rw [hstat] at hl
        simp at hl
      · have hnm : id ∉ getAllMatchIdsByStatus stm "LIVE" :=
          fun hm => hsl ((mem_byStatus_iff _ _ _ hwfm.1).mp hm)
        have hnr : id ∉ (getAllMatchIdsByStatus stm "LIVE").filter
            (fun i => !((activeIdsOf odds).contains i)) :=
          fun hm => hnm (List.mem_filter.mp hm).1
        have hfr2 := sweepList_frame d now1 _ stm id hnr
        rw [hsw] at hfr2
        have hcs : currentStatus st1 id = currentStatus stm id := by
          simp only [currentStatus, getCurrentMatchEntry, hfr2]
        rw [hcs] at hl
        exact hsl hl
    have hpl2 : processLines d now2 st1 (oddsRecords odds) = (st1, none) := by
      apply processLines_noop
      intro rec hrec
      obtain ⟨hu, hpr⟩ := hok rec hrec
      obtain ⟨en, hen, hraw⟩ := hcur1 rec hrec
      exact ⟨hu, hpr, en, hen, hraw⟩
    have hrm2 : (getAllMatchIdsByStatus st1 "LIVE").filter
        (fun i => !((activeIdsOf odds).contains i)) = [] := by
      rw [List.filter_eq_nil_iff]
      intro a ha
      have hst := (mem_byStatus_iff st1 "LIVE" a hwf1.1).mp ha
      have hact := hlive_sub a hst
      simp [hact]
    have hsecond : storageOnEndpointChange d now2 st1 odds = (st1, none) := by
      simp only [storageOnEndpointChange, hpl2,
        markMissingLiveMatchesAsRemoved, hrm2, sweepList]
    exact ⟨hsecond, fun id => by rw [hsecond]⟩

/-- A one-line snapshot used by the C2 witness. -/
def c2wOdds : String := mkRecord "1729839678453"

set_option maxRecDepth 200000 in
theorem C2_witness :
    storageOnEndpointChange testDict 1
        (storageOnEndpointChange testDict 0 [] c2wOdds).1 c2wOdds =
      ((storageOnEndpointChange testDict 0 [] c2wOdds).1, none) :=
  (C2_idempotent_delivery testDict 0 1 []
    (storageOnEndpointChange testDict 0 [] c2wOdds).1 c2wOdds (by decide)
    (by decide) (by decide)).1

/-- A snapshot whose two lines share the match id but differ (start times 1
and 2). -/
def c2odds : String := mkRecord "1" ++ "\n" ++ mkRecord "2"

set_option maxRecDepth 200000 in
/-- The claim as stated is false on the code: deliver `c2odds` twice from the
empty store; both deliveries succeed, but the match's history has length 2
after the first delivery and length 4 after the second — each delivery
re-appends both lines, since each line differs from the then-current raw
line. -/
theorem C2_counterexample :
    (storageOnEndpointChange testDict 0 [] c2odds).2 = none ∧
    (getMatchHistory (storageOnEndpointChange testDict 0 [] c2odds).1
      uMatch).length = 2 ∧
    (storageOnEndpointChange testDict 1
      (storageOnEndpointChange testDict 0 [] c2odds).1 c2odds).2 = none ∧
    (getMatchHistory (storageOnEndpointChange testDict 1
      (storageOnEndpointChange testDict 0 [] c2odds).1 c2odds).1
      uMatch).length = 4 := by
  exact ⟨by decide, by decide, by decide, by decide⟩
